import Mathlib

/-!
# The C API of shaderc (`src/tools/shaderc/shaderc_c_api.cpp`)

A shallow embedding of the foreign-call boundary of the shader compiler:
the two writers, `applyStringList`, `populateOptions`, `assignBuffer`,
`bgfx_shaderc_compile` and `bgfx_shaderc_free_buffer`.

Conventions of the embedding.

* A byte is a `UInt8`.  A `const char*` / `const void*` that the code reads
  as raw memory is an `Option (List Byte)`: `none` is `NULL`, `some mem` is a
  pointer whose readable bytes are `mem` (terminator included, when there is
  one).  Reading `n` bytes through such a pointer is `mem.take n`: the
  caller's objects are taken to be as large as the caller says.
* A `const char*` that the code only converts to a `std::string` (the option
  strings) is an `Option String` holding the text before the terminator.
* `uint32_t` values are natural numbers; every place where the code narrows
  to 32 bits or computes in 32 bits carries an explicit `% 2 ^ 32`.
  `size_t` is a natural number: it is as wide as the address space, so the
  size of no object in memory overflows it.
* The C heap is explicit state (`Heap`).  `malloc` may fail, as told by a
  script carried in the heap; `operator new` and the standard containers are
  taken to succeed.  Writing outside a block is a fault: the operation
  returns `none`.
* `std::string` and `std::vector` locals are values; their storage is not
  part of `Heap` (their destructors release it on every return path).
* `bgfx::compileShader` and the default-constructed `bgfx::Options` come
  from `shaderc.h`, which is not among the sources; they are parameters.
  The Compiler is a function from the arguments of its call to what this
  layer sees of the call: the `write` calls it makes, the boolean it
  returns, and whether it releases the block `_shader`, which it is handed
  as a mutable `char*`; the sources only declare the Compiler, so they do not
  tell whether it does.
* The handles `_output` and `_messages` of the entry point are distinct
  objects.
-/

namespace Shaderc

/-! ## Data model -/

abbrev Byte := UInt8

abbrev Addr := Nat

/-- The width of `uint32_t` as a modulus. -/
def UINT32_MOD : Nat := 2 ^ 32

def BGFX_SHADERC_RESULT_INVALID_ARGUMENT : Int := -1
def BGFX_SHADERC_RESULT_ERROR : Int := 0
def BGFX_SHADERC_RESULT_SUCCESS : Int := 1

/-- `struct bgfx_shaderc_buffer { uint8_t* data; uint32_t size; }`:
`data` is `none` for `NULL`, else the address of a heap block. -/
structure bgfx_shaderc_buffer where
  data : Option Addr
  size : Nat
  deriving DecidableEq, Repr

/-- `struct bgfx_shaderc_string_list { const char* const* data; uint32_t count; }`:
`data` is `none` for `NULL`, else the array it points to, whose entries are
`none` for `NULL` or a string. -/
structure bgfx_shaderc_string_list where
  data : Option (List (Option String))
  count : Nat
  deriving DecidableEq, Repr

/-- `struct bgfx_shaderc_compile_options` of `shaderc_c_api.h`. -/
structure bgfx_shaderc_compile_options where
  shader_type : Char
  platform : Option String
  profile : Option String
  input_path : Option String
  output_path : Option String
  include_dirs : bgfx_shaderc_string_list
  defines : bgfx_shaderc_string_list
  dependencies : bgfx_shaderc_string_list
  disasm : Bool
  raw : Bool
  preprocess_only : Bool
  depends : Bool
  debug_information : Bool
  avoid_flow_control : Bool
  no_preshader : Bool
  partial_precision : Bool
  prefer_flow_control : Bool
  backwards_compatibility : Bool
  warnings_are_errors : Bool
  keep_intermediate : Bool
  optimize : Bool
  optimization_level : Nat
  deriving DecidableEq, Repr

/-- Modelled from the spec: the native `bgfx::Options`, whose declaration
(`shaderc.h`) is not among the sources; the spec gives it the same semantic
fields as the foreign record with all strings owned, and these are the
fields `populateOptions` assigns. -/
structure Options where
  shaderType : Char
  platform : String
  profile : String
  inputFilePath : String
  outputFilePath : String
  includeDirs : List String
  defines : List String
  dependencies : List String
  disasm : Bool
  raw : Bool
  preprocessOnly : Bool
  depends : Bool
  debugInformation : Bool
  avoidFlowControl : Bool
  noPreshader : Bool
  partialPrecision : Bool
  preferFlowControl : Bool
  backwardsCompatibility : Bool
  warningsAreErrors : Bool
  keepIntermediate : Bool
  optimize : Bool
  optimizationLevel : Nat
  deriving DecidableEq, Repr

/-! ## The heap -/

/-- The C heap: the live blocks with their contents, the next unused
address, the outcomes of the coming `malloc` calls (`false`: that call
returns `NULL`; an exhausted script: the call succeeds), and the addresses
passed to `free` so far, latest first. -/
structure Heap where
  blocks : List (Addr × List Byte)
  next : Addr
  script : List Bool
  freed : List Addr
  deriving DecidableEq, Repr

namespace Heap

/-- The contents of the live block at `p`. -/
def read (h : Heap) (p : Addr) : Option (List Byte) :=
  h.blocks.lookup p

/-- A fresh block of `n` bytes (contents not yet written: zeros). -/
def alloc (h : Heap) (n : Nat) : Heap × Addr :=
  ({ h with blocks := (h.next, List.replicate n 0) :: h.blocks, next := h.next + 1 }, h.next)

/-- `std::malloc(n)`: consumes one entry of the script. -/
def malloc (h : Heap) (n : Nat) : Heap × Option Addr :=
  match h.script with
  | false :: rest => ({ h with script := rest }, none)
  | _ =>
    let (h1, p) := alloc { h with script := h.script.tail } n
    (h1, some p)

/-- Whether the next `malloc` call succeeds. -/
def mallocSucceeds (h : Heap) : Bool :=
  h.script.head? != some false

/-- Store `bytes` at offset `off` of the block at `p`; a fault when the
block is not live or the bytes do not fit. -/
def write (h : Heap) (p : Addr) (off : Nat) (bytes : List Byte) : Option Heap :=
  match h.read p with
  | none => none
  | some content =>
    if off + bytes.length ≤ content.length then
      let updated := content.take off ++ bytes ++ content.drop (off + bytes.length)
      some { h with blocks := h.blocks.map fun b => if b.1 = p then (p, updated) else b }
    else
      none

/-- `std::free(p)`. -/
def free (h : Heap) (p : Addr) : Heap :=
  { h with blocks := h.blocks.filter (fun b => b.1 != p), freed := p :: h.freed }

/-- `delete[] p`: the block is no longer live (`freed` logs the calls of
`std::free` only). -/
def release (h : Heap) (p : Addr) : Heap :=
  { h with blocks := h.blocks.filter (fun b => b.1 != p) }

/-- The addresses of the live blocks. -/
def live (h : Heap) : List Addr :=
  h.blocks.map Prod.fst

end Heap

/-- The bytes of a string literal, without terminator. -/
def bytesOf (s : String) : List Byte :=
  s.toList.map fun c => UInt8.ofNat c.toNat

/-- `std::strlen`: the number of bytes before the first terminator. -/
def strlen : List Byte → Nat
  | [] => 0
  | b :: rest => if b = 0 then 0 else strlen rest + 1

/-! ## `assignBuffer` -/

/-- `assignBuffer(_buffer, _data, _size, _nullTerminate)`: `_buffer` is the
pointee of the handle (`none`: the handle is `NULL`); the result is the heap
and the pointee after the call. -/
def assignBuffer (heap : Heap) (_buffer : Option bgfx_shaderc_buffer)
    (_data : Option (List Byte)) (_size : Nat) (_nullTerminate : Bool) :
    Option (Heap × Option bgfx_shaderc_buffer) :=
  match _buffer with
  | none => some (heap, none)
  | some _ =>
    if _size = 0 ∨ _data = none then
      if _nullTerminate then
        match heap.malloc 1 with
        | (heap1, none) => some (heap1, some { data := none, size := 0 })
        | (heap1, some memory) => do
          let heap2 ← heap1.write memory 0 [0]
          some (heap2, some { data := some memory, size := 0 })
      else
        some (heap, some { data := none, size := 0 })
    else
      let total := _size + (if _nullTerminate then 1 else 0)
      match heap.malloc total with
      | (heap1, none) => some (heap1, some { data := none, size := 0 })
      | (heap1, some memory) => do
        let heap2 ← heap1.write memory 0 ((_data.getD []).take _size)
        let heap3 ← if _nullTerminate then heap2.write memory _size [0] else some heap2
        some (heap3, some { data := some memory, size := _size % UINT32_MOD })

/-- `bgfx_shaderc_free_buffer(_buffer)`. -/
def bgfx_shaderc_free_buffer (heap : Heap) (_buffer : Option bgfx_shaderc_buffer) :
    Heap × Option bgfx_shaderc_buffer :=
  match _buffer with
  | none => (heap, none)
  | some b =>
    match b.data with
    | none => (heap, some b)
    | some p => (heap.free p, some { data := none, size := 0 })

/-! ## The writers -/

/-- `VectorWriter::write(_data, _size, err)`: the new `m_buffer` and the
returned count. -/
def VectorWriter.write (m_buffer : List Byte) (_data : List Byte) (_size : Int) :
    List Byte × Int :=
  if _size = 0 then
    (m_buffer, 0)
  else
    (m_buffer ++ _data.take _size.toNat, _size)

/-- `StringWriter::write(_data, _size, err)`: the new `m_string` and the
returned count. -/
def StringWriter.write (m_string : List Byte) (_data : List Byte) (_size : Int) :
    List Byte × Int :=
  if _size = 0 then
    (m_string, 0)
  else
    (m_string ++ _data.take _size.toNat, _size)

/-! ## The option translator -/

/-- The loop `for (ii = 0; ii < count; ++ii)` of `applyStringList`, by
recursion on the iterations left; `ii` is the loop index. The caller's array
has `count` entries; an index past the end of `data` reads as a null entry. -/
def applyStringList.loop (data : List (Option String)) :
    Nat → Nat → List String → List String
  | 0, _, _output => _output
  | left + 1, ii, _output =>
    match data[ii]? with
    | some (some value) => applyStringList.loop data left (ii + 1) (_output ++ [value])
    | _ => applyStringList.loop data left (ii + 1) _output

/-- `applyStringList(_input, _output)`: the new value of `_output`. -/
def applyStringList (_input : bgfx_shaderc_string_list) (_output : List String) :
    List String :=
  let _output : List String := []
  match _input.data with
  | none => _output
  | some data =>
    if _input.count = 0 then
      _output
    else
      applyStringList.loop data _input.count 0 _output

/-- `populateOptions(_input, _output)`: the new value of `_output`;
`defaults` is the default-constructed `bgfx::Options()` that the first
statement assigns to `_output`. Every field is assigned once afterwards,
except `platform` and `profile`, which keep the default when the foreign
pointer is `NULL`. -/
def populateOptions (defaults : Options) (_input : bgfx_shaderc_compile_options)
    (_output : Options) : Options :=
  let _output := defaults
  let level := _input.optimization_level
  let level := min level 3
  { shaderType := _input.shader_type
    platform :=
      match _input.platform with
      | some platform => platform
      | none => _output.platform
    profile :=
      match _input.profile with
      | some profile => profile
      | none => _output.profile
    inputFilePath :=
      match _input.input_path with
      | some path => path
      | none => "<memory>"
    outputFilePath :=
      match _input.output_path with
      | some path => path
      | none => ""
    includeDirs := applyStringList _input.include_dirs _output.includeDirs
    defines := applyStringList _input.defines _output.defines
    dependencies := applyStringList _input.dependencies _output.dependencies
    disasm := _input.disasm
    raw := _input.raw
    preprocessOnly := _input.preprocess_only
    depends := _input.depends
    debugInformation := _input.debug_information
    avoidFlowControl := _input.avoid_flow_control
    noPreshader := _input.no_preshader
    partialPrecision := _input.partial_precision
    preferFlowControl := _input.prefer_flow_control
    backwardsCompatibility := _input.backwards_compatibility
    warningsAreErrors := _input.warnings_are_errors
    keepIntermediate := _input.keep_intermediate
    optimize := _input.optimize
    optimizationLevel := level }

/-! ## The compile entry point -/

/-- The arguments of one call of `bgfx::compileShader`; `shader` is the
content of the block `_shader` points to, at the time of the call. -/
structure CompilerCall where
  varying : Option (List Byte)
  comment : String
  shader : List Byte
  shaderLen : Nat
  options : Options
  deriving DecidableEq, Repr

/-- One `write` call of the Compiler, on `_shaderWriter` or on
`_messageWriter`, with its `_data` and `_size`. -/
inductive WriteCall where
  | shader (data : List Byte) (size : Int)
  | message (data : List Byte) (size : Int)
  deriving DecidableEq, Repr

/-- What a call of `bgfx::compileShader` does, as far as this layer sees:
the `write` calls it makes, in order, the boolean it returns, and whether it
released (`delete[]`) the block `_shader` it was handed as a mutable `char*`
(line 22 declares the Compiler; its body is not among the sources). -/
structure CompilerRun where
  writes : List WriteCall
  compiled : Bool
  released : Bool
  deriving DecidableEq, Repr

/-- The heap after the call of the Compiler, which was handed the block at
`_shader`: without that block when the Compiler released it. -/
def CompilerRun.heapAfter (run : CompilerRun) (heap : Heap) (_shader : Addr) : Heap :=
  if run.released then heap.release _shader else heap

/-- The two sinks after the Compiler's `write` calls, starting from
`(outputData, messageData)`. -/
def runWrites (writes : List WriteCall) (sinks : List Byte × List Byte) :
    List Byte × List Byte :=
  writes.foldl
    (fun acc w =>
      match w with
      | .shader data size => ((VectorWriter.write acc.1 data size).1, acc.2)
      | .message data size => (acc.1, (StringWriter.write acc.2 data size).1))
    sinks

/-- Modelled from the spec: the `BX_COUNTOF` helper of bx, which is not among
the sources: the number of elements of an array (the spec has the whole
fixed message handed over). -/
def BX_COUNTOF (array : List Byte) : Nat := array.length

/-- `static const char kError[]`. -/
def kError : List Byte :=
  bytesOf "Invalid arguments passed to bgfx_shaderc_compile.\n" ++ [0]

/-- `static const char kEmpty[]`. -/
def kEmpty : List Byte :=
  bytesOf "Shader source is empty.\n" ++ [0]

/-- The length the entry point uses for a text given as `(pointer, size)`:
the size, or for size 0 the `strlen` narrowed to `uint32_t` (lines 225-229
for the shader, 251-255 for the varying text). -/
def effectiveSize (_size : Nat) (_source : List Byte) : Nat :=
  let size := _size
  if size = 0 then strlen _source % UINT32_MOD else size

/-- What a call of `bgfx_shaderc_compile` leaves behind: the returned code,
the pointees of `_output` and `_messages` (`none`: the handle was `NULL`),
the heap, and the calls of the Compiler it made. -/
structure CompileResult where
  code : Int
  output : Option bgfx_shaderc_buffer
  messages : Option bgfx_shaderc_buffer
  heap : Heap
  calls : List CompilerCall
  deriving DecidableEq, Repr

/-- `bgfx_shaderc_compile`; `none` is a store outside a heap block. The
handles `_output` and `_messages` are distinct objects. -/
def bgfx_shaderc_compile (compileShader : CompilerCall → CompilerRun) (defaults : Options)
    (heap : Heap)
    (_options : Option bgfx_shaderc_compile_options)
    (_shader_source : Option (List Byte)) (_shader_size : Nat)
    (_varying_source : Option (List Byte)) (_varying_size : Nat)
    (_output _messages : Option bgfx_shaderc_buffer) : Option CompileResult :=
  let _output : Option bgfx_shaderc_buffer :=
    _output.map fun _ => { data := none, size := 0 }
  let _messages : Option bgfx_shaderc_buffer :=
    _messages.map fun _ => { data := none, size := 0 }
  match _options, _shader_source with
  | none, _ | _, none => do
    let (heap, _messages) ←
      if _messages.isSome then
        assignBuffer heap _messages (some kError) (BX_COUNTOF kError - 1) true
      else
        some (heap, _messages)
    some { code := BGFX_SHADERC_RESULT_INVALID_ARGUMENT, output := _output,
           messages := _messages, heap := heap, calls := [] }
  | some options, some source =>
    let shaderSize := effectiveSize _shader_size source
    if shaderSize = 0 then do
      let (heap, _messages) ←
        if _messages.isSome then
          assignBuffer heap _messages (some kEmpty) (BX_COUNTOF kEmpty - 1) true
        else
          some (heap, _messages)
      some { code := BGFX_SHADERC_RESULT_INVALID_ARGUMENT, output := _output,
             messages := _messages, heap := heap, calls := [] }
    else do
      let (heap, shaderData) := heap.alloc ((shaderSize + 2) % UINT32_MOD)
      let heap ← heap.write shaderData 0 (source.take shaderSize)
      let heap ← heap.write shaderData shaderSize [10]
      let heap ← heap.write shaderData ((shaderSize + 1) % UINT32_MOD) [0]
      let varyingPtr : Option (List Byte) :=
        match _varying_source with
        | none => none
        | some varyingSource =>
          let varyingSize := effectiveSize _varying_size varyingSource
          let varying := varyingSource.take varyingSize ++ [0]
          some (varying ++ [0])
      let options := populateOptions defaults options defaults
      let outputData : List Byte := []
      let messageData : List Byte := []
      let shader ← heap.read shaderData
      let call : CompilerCall :=
        { varying := varyingPtr, comment := "", shader := shader,
          shaderLen := shaderSize, options := options }
      let run := compileShader call
      let heap := run.heapAfter heap shaderData
      let (outputData, messageData) := runWrites run.writes (outputData, messageData)
      let compiled := run.compiled
      let (heap, _output) ←
        if _output.isSome then
          assignBuffer heap _output (if outputData.isEmpty then none else some outputData)
            outputData.length false
        else
          some (heap, _output)
      let (heap, _messages) ←
        if _messages.isSome then
          let messageSize := messageData.length
          if messageSize > 0 then
            assignBuffer heap _messages (some messageData) messageSize true
          else
            assignBuffer heap _messages (some [0]) 0 true
        else
          some (heap, _messages)
      some { code := if compiled then BGFX_SHADERC_RESULT_SUCCESS else BGFX_SHADERC_RESULT_ERROR,
             output := _output, messages := _messages, heap := heap, calls := [call] }

/-! ## Concrete inputs -/

/-- A heap with no block, in which every `malloc` succeeds. -/
def emptyHeap : Heap := { blocks := [], next := 1, script := [], freed := [] }

/-- An all-zero, all-`NULL` buffer handle pointee. -/
def emptyBuffer : bgfx_shaderc_buffer := { data := none, size := 0 }

/-- A fragment-shader options record with no optional field set. -/
def sampleOptions : bgfx_shaderc_compile_options :=
  { shader_type := 'f', platform := none, profile := none, input_path := none,
    output_path := none, include_dirs := ⟨none, 0⟩, defines := ⟨none, 0⟩,
    dependencies := ⟨none, 0⟩, disasm := false, raw := false, preprocess_only := false,
    depends := false, debug_information := false, avoid_flow_control := false,
    no_preshader := false, partial_precision := false, prefer_flow_control := false,
    backwards_compatibility := false, warnings_are_errors := false,
    keep_intermediate := false, optimize := false, optimization_level := 0 }

/-- A stand-in for the default-constructed `bgfx::Options`. -/
def sampleDefaults : Options :=
  { shaderType := ' ', platform := "", profile := "", inputFilePath := "",
    outputFilePath := "", includeDirs := [], defines := [], dependencies := [],
    disasm := false, raw := false, preprocessOnly := false, depends := false,
    debugInformation := false, avoidFlowControl := false, noPreshader := false,
    partialPrecision := false, preferFlowControl := false, backwardsCompatibility := false,
    warningsAreErrors := false, keepIntermediate := false, optimize := false,
    optimizationLevel := 3 }

/-- A stand-in for the Compiler: it writes the text it was given (without
the newline the entry point added) to the artifact sink, a fixed line to
the diagnostics sink, and succeeds; it does not release the buffer it was
handed. -/
def sampleCompiler : CompilerCall → CompilerRun := fun call =>
  { writes := [.shader call.shader call.shaderLen, .message (bytesOf "ok\n") 3],
    compiled := true, released := false }

/-- A heap with no block, in which the next `malloc` fails. -/
def failingHeap : Heap := { blocks := [], next := 1, script := [false], freed := [] }

/-- A chunk of 2^30 bytes. -/
def floodChunk : List Byte := List.replicate 1073741824 65

/-- Four `write` calls of 2^30 bytes on each sink: 2^32 bytes per sink. -/
def floodWrites : List WriteCall :=
  [.shader floodChunk 1073741824, .message floodChunk 1073741824,
   .shader floodChunk 1073741824, .message floodChunk 1073741824,
   .shader floodChunk 1073741824, .message floodChunk 1073741824,
   .shader floodChunk 1073741824, .message floodChunk 1073741824]

/-- A stand-in for a Compiler that writes 2^32 bytes to each sink. -/
def floodCompiler : CompilerCall → CompilerRun := fun _ =>
  { writes := floodWrites, compiled := true, released := false }

/-- The source "void main(){}" as a C string. -/
def sampleSource : List Byte := bytesOf "void main(){}" ++ [0]

/-- The call of the Compiler made for `sampleSource` with `sampleOptions`
and no varying text. -/
def sampleCall : CompilerCall :=
  { varying := none, comment := "", shader := bytesOf "void main(){}" ++ [10, 0],
    shaderLen := 13, options := populateOptions sampleDefaults sampleOptions sampleDefaults }

/-- What the entry point leaves for `sampleSource` with `sampleCompiler` on
`emptyHeap`, both buffers requested: block 1 is the source copy, block 2 the
artifact, block 3 the diagnostics. -/
def sampleResult : CompileResult :=
  { code := 1, output := some { data := some 2, size := 13 },
    messages := some { data := some 3, size := 3 },
    heap := { blocks := [(3, bytesOf "ok\n" ++ [0]), (2, bytesOf "void main(){}"),
                         (1, bytesOf "void main(){}" ++ [10, 0])],
              next := 4, script := [], freed := [] },
    calls := [sampleCall] }

/-- The allocation a buffer handle owns: the block its `data` points to
(`none`: the handle is `NULL` or its `data` is). -/
def dataOf (buffer : Option bgfx_shaderc_buffer) : Option Addr :=
  buffer.bind fun b => b.data

/-! ## What the Compiler wrote, in the words of the specification -/

/-- The bytes a call `write(_data, _size)` appends: the first `_size` bytes
at `_data`. -/
def chunkOf (data : List Byte) (size : Int) : List Byte :=
  data.take size.toNat

/-- The concatenation, in write order, of all bytes written to the artifact
sink. -/
def artifactBytes : List WriteCall → List Byte
  | [] => []
  | .shader data size :: rest => chunkOf data size ++ artifactBytes rest
  | .message _ _ :: rest => artifactBytes rest

/-- The concatenation, in write order, of all bytes written to the
diagnostics sink. -/
def diagnosticBytes : List WriteCall → List Byte
  | [] => []
  | .shader _ _ :: rest => diagnosticBytes rest
  | .message data size :: rest => chunkOf data size ++ diagnosticBytes rest

/-- The `malloc` script as the hand-over of the diagnostics sink finds it:
the hand-over of the artifact sink comes first and has consumed one entry
when an artifact buffer was requested and the sink was not empty. -/
def scriptForMessages (heap : Heap) (output : Option bgfx_shaderc_buffer)
    (artifact : List Byte) : List Bool :=
  if output.isSome && !artifact.isEmpty then heap.script.tail else heap.script

/-! ## Lemmas on the heap -/

theorem lookup_map_update (p q : Addr) (u : List Byte) (l : List (Addr × List Byte)) :
    (l.map fun b => if b.1 = p then (p, u) else b).lookup q
      = if q = p then (l.lookup p).map (fun _ => u) else l.lookup q := by
  induction l with
  | nil => simp
  | cons b rest ih =>
    obtain ⟨a, c⟩ := b
    by_cases hap : a = p
    · subst hap
      by_cases hq : q = a
      · subst hq
        simp [List.lookup_cons]
      · have hqa : (q == a) = false := by simpa using hq
        simp [List.lookup_cons, hq, hqa] at ih ⊢
        exact ih
    · by_cases hq : q = p
      · subst hq
        have hqa : (q == a) = false := by
          simp only [beq_eq_false_iff_ne]
          exact fun h => hap h.symm
        simp [List.lookup_cons, hap, hqa] at ih ⊢
        exact ih
      · by_cases hqa : q = a
        · subst hqa
          simp [List.lookup_cons, hap, hq]
        · have hqa2 : (q == a) = false := by simpa using hqa
          simp [List.lookup_cons, hap, hq, hqa2] at ih ⊢
          exact ih

theorem map_update_fst (p : Addr) (u : List Byte) (l : List (Addr × List Byte)) :
    (l.map fun b => if b.1 = p then (p, u) else b).map Prod.fst = l.map Prod.fst := by
  induction l with
  | nil => rfl
  | cons b rest ih =>
    by_cases hb : b.1 = p
    · simp [hb, ih]
    · simp [hb, ih]

/-- A store that fits succeeds; it changes the block written to and nothing
else. -/
theorem Heap.write_ok (h : Heap) (p : Addr) (off : Nat) (bytes content : List Byte)
    (hread : h.read p = some content) (hfit : off + bytes.length ≤ content.length) :
    ∃ h1, h.write p off bytes = some h1
      ∧ h1.read p = some (content.take off ++ bytes ++ content.drop (off + bytes.length))
      ∧ (∀ q, q ≠ p → h1.read q = h.read q)
      ∧ h1.live = h.live ∧ h1.next = h.next ∧ h1.script = h.script ∧ h1.freed = h.freed := by
  refine ⟨{ h with blocks := h.blocks.map fun b =>
      if b.1 = p then
        (p, content.take off ++ bytes ++ content.drop (off + bytes.length))
      else b }, ?_, ?_, ?_, ?_, rfl, rfl, rfl⟩
  · simp only [Heap.write, hread, hfit, if_true]
  · unfold Heap.read at hread ⊢
    simp [lookup_map_update, hread]
  · intro q hq
    unfold Heap.read
    simp [lookup_map_update, hq]
  · simp only [Heap.live]
    exact map_update_fst _ _ _

/-- A store that does not fit is a fault. -/
theorem Heap.write_fault (h : Heap) (p : Addr) (off : Nat) (bytes content : List Byte)
    (hread : h.read p = some content) (hfit : content.length < off + bytes.length) :
    h.write p off bytes = none := by
  simp only [Heap.write, hread]
  rw [if_neg (by omega)]

theorem Heap.alloc_spec (h : Heap) (n : Nat) :
    (h.alloc n).2 = h.next
      ∧ (h.alloc n).1.read h.next = some (List.replicate n 0)
      ∧ (∀ q, q ≠ h.next → (h.alloc n).1.read q = h.read q)
      ∧ (h.alloc n).1.live = h.next :: h.live
      ∧ (h.alloc n).1.next = h.next + 1
      ∧ (h.alloc n).1.script = h.script
      ∧ (h.alloc n).1.freed = h.freed := by
  refine ⟨rfl, ?_, ?_, rfl, rfl, rfl, rfl⟩
  · simp [Heap.alloc, Heap.read, List.lookup_cons]
  · intro q hq
    have : (q == h.next) = false := by simpa using hq
    simp [Heap.alloc, Heap.read, List.lookup_cons, this]

theorem Heap.malloc_of_succeeds (h : Heap) (n : Nat) (hs : h.mallocSucceeds = true) :
    h.malloc n = ((Heap.alloc { h with script := h.script.tail } n).1, some h.next) := by
  unfold Heap.mallocSucceeds at hs
  unfold Heap.malloc
  rcases hsc : h.script with _ | ⟨b, rest⟩
  · rfl
  · cases b
    · simp [hsc] at hs
    · rfl

theorem Heap.malloc_of_fails (h : Heap) (n : Nat) (hs : h.mallocSucceeds = false) :
    h.malloc n = ({ h with script := h.script.tail }, none) := by
  unfold Heap.mallocSucceeds at hs
  unfold Heap.malloc
  rcases hsc : h.script with _ | ⟨b, rest⟩
  · simp [hsc] at hs
  · cases b
    · rfl
    · simp [hsc] at hs

theorem lookup_filter_ne (p q : Addr) (l : List (Addr × List Byte)) :
    (l.filter fun b => b.1 != p).lookup q = if q = p then none else l.lookup q := by
  induction l with
  | nil => simp
  | cons b rest ih =>
    obtain ⟨a, c⟩ := b
    by_cases hap : a = p
    · subst hap
      by_cases hq : q = a
      · subst hq
        simp [List.filter_cons, ih]
      · have hqa : (q == a) = false := by simpa using hq
        simp [List.filter_cons, List.lookup_cons, ih, hq, hqa]
    · have hap2 : (a != p) = true := by simpa using hap
      by_cases hq : q = p
      · subst hq
        have hqa : (q == a) = false := by
          simp only [beq_eq_false_iff_ne]
          exact fun h => hap h.symm
        simp [List.filter_cons, List.lookup_cons, ih, hap2, hqa]
      · by_cases hqa : q = a
        · subst hqa
          simp [List.filter_cons, List.lookup_cons, hap2, hq]
        · have hqa2 : (q == a) = false := by simpa using hqa
          simp [List.filter_cons, List.lookup_cons, ih, hap2, hq, hqa2]

/-- A released block is no longer live; nothing else changes. -/
theorem Heap.release_spec (h : Heap) (p : Addr) :
    (h.release p).read p = none
      ∧ (∀ q, q ≠ p → (h.release p).read q = h.read q)
      ∧ (∀ q, q ∈ (h.release p).live ↔ q ∈ h.live ∧ q ≠ p)
      ∧ (h.release p).next = h.next
      ∧ (h.release p).script = h.script
      ∧ (h.release p).freed = h.freed := by
  refine ⟨?_, ?_, ?_, rfl, rfl, rfl⟩
  · simp [Heap.release, Heap.read, lookup_filter_ne]
  · intro q hq
    simp [Heap.release, Heap.read, lookup_filter_ne, hq]
  · intro q
    simp only [Heap.release, Heap.live, List.mem_map, List.mem_filter]
    constructor
    · rintro ⟨b, ⟨hb, hne⟩, rfl⟩
      exact ⟨⟨b, hb, rfl⟩, by simpa using hne⟩
    · rintro ⟨⟨b, hb, rfl⟩, hne⟩
      exact ⟨b, ⟨hb, by simpa using hne⟩, rfl⟩

/-- The heap the Compiler leaves: as before, except that the block it was
handed is gone when the Compiler released it. -/
theorem heapAfter_spec (run : CompilerRun) (h : Heap) (p : Addr) :
    (∀ q, q ≠ p → (run.heapAfter h p).read q = h.read q)
      ∧ (∀ q, q ∈ (run.heapAfter h p).live → q ∈ h.live)
      ∧ (∀ q, q ∈ h.live → q ≠ p → q ∈ (run.heapAfter h p).live)
      ∧ (run.heapAfter h p).next = h.next
      ∧ (run.heapAfter h p).script = h.script
      ∧ (run.heapAfter h p).freed = h.freed
      ∧ (run.released = false → run.heapAfter h p = h)
      ∧ (run.released = true → p ∉ (run.heapAfter h p).live) := by
  obtain ⟨-, hframe, hlive, hnext, hscript, hfreed⟩ := Heap.release_spec h p
  cases hrel : run.released with
  | false =>
    have he : run.heapAfter h p = h := by simp [CompilerRun.heapAfter, hrel]
    rw [he]
    exact ⟨fun _ _ => rfl, fun _ hq => hq, fun _ hq _ => hq, rfl, rfl, rfl, fun _ => rfl,
      (fun h => nomatch h)⟩
  | true =>
    have he : run.heapAfter h p = h.release p := by simp [CompilerRun.heapAfter, hrel]
    rw [he]
    exact ⟨hframe, fun q hq => ((hlive q).mp hq).1, fun q hq hne => (hlive q).mpr ⟨hq, hne⟩,
      hnext, hscript, hfreed, (fun h => nomatch h), fun _ hp => ((hlive p).mp hp).2 rfl⟩

/-! ## Lemmas on `assignBuffer` -/

/-- The non-empty case with a successful `malloc`: the block is fresh, holds
the `_size` bytes copied (and the terminator when asked for), and the
reported size is `_size` narrowed to 32 bits. -/
theorem assignBuffer_copy (heap : Heap) (b : bgfx_shaderc_buffer) (S : List Byte) (n : Nat)
    (nt : Bool) (hs : heap.mallocSucceeds = true) (hn : n ≠ 0) (hlen : n ≤ S.length) :
    ∃ heap1, assignBuffer heap (some b) (some S) n nt
        = some (heap1, some { data := some heap.next, size := n % UINT32_MOD })
      ∧ heap1.read heap.next = some (S.take n ++ if nt then [0] else [])
      ∧ (∀ q, q ≠ heap.next → heap1.read q = heap.read q)
      ∧ heap1.live = heap.next :: heap.live ∧ heap1.next = heap.next + 1
      ∧ heap1.script = heap.script.tail ∧ heap1.freed = heap.freed := by
  have htake : (S.take n).length = n := by simp [List.length_take, hlen]
  cases nt with
  | false =>
    obtain ⟨_, haread, haframe, halive, hanext, hascript, hafreed⟩ :=
      Heap.alloc_spec { heap with script := heap.script.tail } n
    obtain ⟨h1, hw1, hr1, hf1, hl1, hn1, hs1, hfr1⟩ :=
      Heap.write_ok _ heap.next 0 (S.take n) _ haread (by simp)
    have hwrite1 : (Heap.alloc { heap with script := heap.script.tail } n).1.write
        heap.next 0 (List.take n S) = some h1 := hw1
    refine ⟨h1, ?_, ?_, ?_, ?_, ?_, ?_, ?_⟩
    · simp [assignBuffer, hn, Heap.malloc_of_succeeds _ _ hs, hwrite1]
    · rw [hr1]; simp [htake]
    · intro q hq; rw [hf1 q hq]; exact haframe q hq
    · rw [hl1]; exact halive
    · rw [hn1]; exact hanext
    · rw [hs1]; exact hascript
    · rw [hfr1]; exact hafreed
  | true =>
    obtain ⟨_, haread, haframe, halive, hanext, hascript, hafreed⟩ :=
      Heap.alloc_spec { heap with script := heap.script.tail } (n + 1)
    obtain ⟨h1, hw1, hr1, hf1, hl1, hn1, hs1, hfr1⟩ :=
      Heap.write_ok _ heap.next 0 (S.take n) _ haread (by simp)
    have hwrite1 : (Heap.alloc { heap with script := heap.script.tail } (n + 1)).1.write
        heap.next 0 (List.take n S) = some h1 := hw1
    have hr1b : h1.read heap.next = some (S.take n ++ [0]) := by
      rw [hr1]; simp [htake, List.drop_replicate]
    obtain ⟨h2, hw2, hr2, hf2, hl2, hn2, hs2, hfr2⟩ :=
      Heap.write_ok h1 heap.next n [0] _ hr1b (by simp [htake])
    refine ⟨h2, ?_, ?_, ?_, ?_, ?_, ?_, ?_⟩
    · simp [assignBuffer, hn, Heap.malloc_of_succeeds _ _ hs, hwrite1, hw2]
    · rw [hr2]; simp [htake]
    · intro q hq; rw [hf2 q hq, hf1 q hq]; exact haframe q hq
    · rw [hl2, hl1]; exact halive
    · rw [hn2, hn1]; exact hanext
    · rw [hs2, hs1]; exact hascript
    · rw [hfr2, hfr1]; exact hafreed

/-- The empty case with a terminator and a successful `malloc`: a fresh
one-byte block holding the terminator, reported size 0. -/
theorem assignBuffer_empty_terminated (heap : Heap) (b : bgfx_shaderc_buffer)
    (data : Option (List Byte)) (n : Nat) (hs : heap.mallocSucceeds = true)
    (h0 : n = 0 ∨ data = none) :
    ∃ heap1, assignBuffer heap (some b) data n true
        = some (heap1, some { data := some heap.next, size := 0 })
      ∧ heap1.read heap.next = some [0]
      ∧ (∀ q, q ≠ heap.next → heap1.read q = heap.read q)
      ∧ heap1.live = heap.next :: heap.live ∧ heap1.next = heap.next + 1
      ∧ heap1.script = heap.script.tail ∧ heap1.freed = heap.freed := by
  obtain ⟨ha2, haread, haframe, halive, hanext, hascript, hafreed⟩ :=
    Heap.alloc_spec { heap with script := heap.script.tail } 1
  obtain ⟨h1, hw1, hr1, hf1, hl1, hn1, hs1, hfr1⟩ :=
    Heap.write_ok _ heap.next 0 [0] _ haread (by simp)
  have hwrite1 : (Heap.alloc { heap with script := heap.script.tail } 1).1.write
      heap.next 0 [0] = some h1 := hw1
  simp only [assignBuffer, h0, if_true, Heap.malloc_of_succeeds _ _ hs, hwrite1,
    Option.bind_eq_bind, Option.some_bind]
  refine ⟨h1, rfl, ?_, ?_, ?_, ?_, ?_, ?_⟩
  · rw [hr1]; simp
  · intro q hq; rw [hf1 q hq]; exact haframe q hq
  · rw [hl1]; exact halive
  · rw [hn1]; exact hanext
  · rw [hs1]; exact hascript
  · rw [hfr1]; exact hafreed

/-- The empty case without a terminator: no allocation, an empty buffer. -/
theorem assignBuffer_empty_plain (heap : Heap) (b : bgfx_shaderc_buffer)
    (data : Option (List Byte)) (n : Nat) (h0 : n = 0 ∨ data = none) :
    assignBuffer heap (some b) data n false = some (heap, some { data := none, size := 0 }) := by
  simp [assignBuffer, h0]

/-- A failed `malloc`: an empty buffer. -/
theorem assignBuffer_malloc_fails (heap : Heap) (b : bgfx_shaderc_buffer)
    (data : Option (List Byte)) (n : Nat) (nt : Bool) (hs : heap.mallocSucceeds = false)
    (hcall : nt = true ∨ ¬ (n = 0 ∨ data = none)) :
    assignBuffer heap (some b) data n nt
      = some ({ heap with script := heap.script.tail }, some { data := none, size := 0 }) := by
  by_cases h0 : n = 0 ∨ data = none
  · have hnt : nt = true := by
      rcases hcall with h | h
      · exact h
      · exact absurd h0 h
    subst hnt
    simp [assignBuffer, h0, Heap.malloc_of_fails _ _ hs]
  · simp only [assignBuffer, h0, if_false, Heap.malloc_of_fails _ _ hs]

/-- Whenever the bytes handed over are there, `assignBuffer` returns, and
the pointee of a non-null handle is still there afterwards. -/
theorem assignBuffer_total (heap : Heap) (b : bgfx_shaderc_buffer)
    (data : Option (List Byte)) (n : Nat) (nt : Bool)
    (hlen : ∀ S, data = some S → n ≤ S.length) :
    ∃ heap1 b1, assignBuffer heap (some b) data n nt = some (heap1, some b1) := by
  by_cases h0 : n = 0 ∨ data = none
  · cases nt with
    | false => exact ⟨_, _, assignBuffer_empty_plain heap b data n h0⟩
    | true =>
      cases hs : heap.mallocSucceeds with
      | false => exact ⟨_, _, assignBuffer_malloc_fails heap b data n true hs (Or.inl rfl)⟩
      | true =>
        obtain ⟨heap1, h, _⟩ := assignBuffer_empty_terminated heap b data n hs h0
        exact ⟨_, _, h⟩
  · cases hs : heap.mallocSucceeds with
    | false => exact ⟨_, _, assignBuffer_malloc_fails heap b data n nt hs (Or.inr h0)⟩
    | true =>
      rcases data with _ | S
      · exact absurd (Or.inr rfl) h0
      · obtain ⟨heap1, h, _⟩ :=
          assignBuffer_copy heap b S n nt hs (fun h => h0 (Or.inl h)) (hlen S rfl)
        exact ⟨_, _, h⟩

theorem splice_length (content bytes : List Byte) (off : Nat)
    (h : off + bytes.length ≤ content.length) :
    (content.take off ++ bytes ++ content.drop (off + bytes.length)).length
      = content.length := by
  simp only [List.length_append, List.length_take, List.length_drop]
  omega

/-- The copy of the source made by the entry point (lines 242-245), when
`n + 2` does not wrap: the three stores fit, and the block then holds
`n + 2` bytes, the first `n` of the source, a newline and a terminator. -/
theorem prepare_source (heap : Heap) (source : List Byte) (n : Nat)
    (hfit : n + 2 < UINT32_MOD) :
    ∃ h1 h2 h3 shader,
      (heap.alloc ((n + 2) % UINT32_MOD)).1.write heap.next 0 (source.take n) = some h1
      ∧ h1.write heap.next n [10] = some h2
      ∧ h2.write heap.next ((n + 1) % UINT32_MOD) [0] = some h3
      ∧ h3.read heap.next = some shader
      ∧ shader.length = n + 2
      ∧ (n ≤ source.length → shader = source.take n ++ [10, 0])
      ∧ (∀ q, q ≠ heap.next → h3.read q = heap.read q)
      ∧ h3.live = heap.next :: heap.live ∧ h3.next = heap.next + 1
      ∧ h3.script = heap.script ∧ h3.freed = heap.freed := by
  have hm2 : (n + 2) % UINT32_MOD = n + 2 := Nat.mod_eq_of_lt hfit
  have hm1 : (n + 1) % UINT32_MOD = n + 1 := Nat.mod_eq_of_lt (by omega)
  rw [hm2, hm1]
  obtain ⟨_, haread, haframe, halive, hanext, hascript, hafreed⟩ := Heap.alloc_spec heap (n + 2)
  have hlt : (source.take n).length ≤ n := by simp [List.length_take]
  obtain ⟨h1, hw1, hr1, hf1, hl1, hn1, hs1, hfr1⟩ :=
    Heap.write_ok _ heap.next 0 (source.take n) _ haread (by simp only [List.length_replicate]; omega)
  have hlen1 := splice_length (List.replicate (n + 2) (0 : Byte)) (source.take n) 0
    (by simp only [List.length_replicate]; omega)
  obtain ⟨h2, hw2, hr2, hf2, hl2, hn2, hs2, hfr2⟩ :=
    Heap.write_ok h1 heap.next n [10] _ hr1 (by rw [hlen1]; simp)
  have hlen2 := splice_length _ [10] n
    (show n + [(10 : Byte)].length ≤ _ by rw [hlen1]; simp)
  obtain ⟨h3, hw3, hr3, hf3, hl3, hn3, hs3, hfr3⟩ :=
    Heap.write_ok h2 heap.next (n + 1) [0] _ hr2 (by rw [hlen2, hlen1]; simp)
  have hlen3 := splice_length _ [0] (n + 1)
    (show n + 1 + [(0 : Byte)].length ≤ _ by rw [hlen2, hlen1]; simp)
  refine ⟨h1, h2, h3, _, hw1, hw2, hw3, hr3, ?_, ?_, ?_, ?_, ?_, ?_, ?_⟩
  · rw [hlen3, hlen2, hlen1]; simp
  · intro hle
    have htake : (source.take n).length = n := by simp [List.length_take, hle]
    clear hlen1 hlen2 hlen3 hw1 hw2 hw3 hr1 hr2 hr3 hlt hm1 hm2 hfit haread
    generalize List.take n source = T at htake ⊢
    subst htake
    have e1 : List.take 0 (List.replicate (T.length + 2) (0 : Byte)) ++ T
        ++ List.drop (0 + T.length) (List.replicate (T.length + 2) 0) = T ++ [0, 0] := by
      simp [List.drop_replicate]
    have e2 : List.take T.length (T ++ [(0 : Byte), 0]) ++ [10]
        ++ List.drop (T.length + [(10 : Byte)].length) (T ++ [0, 0]) = T ++ [10, 0] := by
      rw [List.take_left, List.drop_append]; simp
    have e3 : List.take (T.length + 1) (T ++ [(10 : Byte), 0]) ++ [0]
        ++ List.drop (T.length + 1 + [(0 : Byte)].length) (T ++ [10, 0]) = T ++ [10, 0] := by
      rw [List.take_append, Nat.add_assoc, List.drop_append]; simp
    rw [e1, e2, e3]
  · intro q hq; rw [hf3 q hq, hf2 q hq, hf1 q hq]; exact haframe q hq
  · rw [hl3, hl2, hl1]; exact halive
  · rw [hn3, hn2, hn1]; exact hanext
  · rw [hs3, hs2, hs1]; exact hascript
  · rw [hfr3, hfr2, hfr1]; exact hafreed

/-- A store that succeeded was in bounds, and the block keeps its size. -/
theorem Heap.write_some (h h1 : Heap) (p : Addr) (off : Nat) (bytes : List Byte)
    (hw : h.write p off bytes = some h1) :
    ∃ content updated, h.read p = some content ∧ off + bytes.length ≤ content.length
      ∧ h1.read p = some updated ∧ updated.length = content.length := by
  cases hread : h.read p with
  | none => simp [Heap.write, hread] at hw
  | some content =>
    by_cases hfit : off + bytes.length ≤ content.length
    · obtain ⟨h2, hw2, hr2, -⟩ := Heap.write_ok h p off bytes content hread hfit
      rw [hw] at hw2
      cases hw2
      exact ⟨content, _, rfl, hfit, hr2, splice_length content bytes off hfit⟩
    · rw [Heap.write_fault h p off bytes content hread (by omega)] at hw
      cases hw

/-! ## Lemmas on `bgfx_shaderc_compile` -/

theorem bind_total {α β : Type} (x : Option α) (f : α → Option β) (P : β → Prop)
    (hx : ∃ a, x = some a) (hf : ∀ a, x = some a → ∃ r, f a = some r ∧ P r) :
    ∃ r, x.bind f = some r ∧ P r := by
  obtain ⟨a, ha⟩ := hx
  subst ha
  exact hf a rfl

theorem assignBuffer_returns (heap : Heap) (b : bgfx_shaderc_buffer)
    (data : Option (List Byte)) (n : Nat) (nt : Bool)
    (hlen : ∀ S, data = some S → n ≤ S.length) :
    ∃ a, assignBuffer heap (some b) data n nt = some a := by
  obtain ⟨heap1, b1, h⟩ := assignBuffer_total heap b data n nt hlen
  exact ⟨_, h⟩

/-- With options and source present and an effective length `n` with
`1 ≤ n` and `n + 2 < 2 ^ 32`, the entry point returns, having called the
Compiler once, and the code tells what the Compiler returned. -/
theorem compile_valid (compileShader : CompilerCall → CompilerRun) (defaults : Options)
    (heap : Heap) (options : bgfx_shaderc_compile_options) (source : List Byte) (size : Nat)
    (varyingSource : Option (List Byte)) (varyingSize : Nat)
    (output messages : Option bgfx_shaderc_buffer)
    (hn : effectiveSize size source ≠ 0)
    (hfit : effectiveSize size source + 2 < UINT32_MOD) :
    ∃ r, bgfx_shaderc_compile compileShader defaults heap (some options) (some source) size
          varyingSource varyingSize output messages = some r
      ∧ ∃ call, r.calls = [call]
        ∧ r.code = (if (compileShader call).compiled then BGFX_SHADERC_RESULT_SUCCESS
                    else BGFX_SHADERC_RESULT_ERROR)
        ∧ call.shaderLen = effectiveSize size source
        ∧ call.comment = ""
        ∧ call.options = populateOptions defaults options defaults
        ∧ call.shader.length = effectiveSize size source + 2
        ∧ (effectiveSize size source ≤ source.length →
            call.shader = source.take (effectiveSize size source) ++ [10, 0]) := by
  obtain ⟨h1, h2, h3, shader, hw1, hw2, hw3, hr3, hlen, hshader, -⟩ :=
    prepare_source heap source (effectiveSize size source) hfit
  simp only [bgfx_shaderc_compile, hn, if_false, hw1, Heap.alloc_spec, hw2, hw3, hr3,
    Option.bind_eq_bind, Option.some_bind]
  rcases output with _ | ob <;> rcases messages with _ | mb <;>
    simp only [Option.map_none', Option.map_some', Option.isSome_none, Option.isSome_some,
      if_true, if_false, Bool.false_eq_true]
  · exact ⟨_, rfl, _, rfl, rfl, rfl, rfl, rfl, hlen, hshader⟩
  · split
    · apply bind_total
      · exact assignBuffer_returns _ _ _ _ _ (by intro S hS; cases hS; exact le_refl _)
      · intro a _
        exact ⟨_, rfl, _, rfl, rfl, rfl, rfl, rfl, hlen, hshader⟩
    · apply bind_total
      · exact assignBuffer_returns _ _ _ _ _ (by intro S _; exact Nat.zero_le _)
      · intro a _
        exact ⟨_, rfl, _, rfl, rfl, rfl, rfl, rfl, hlen, hshader⟩
  · apply bind_total
    · refine assignBuffer_returns _ _ _ _ _ ?_
      intro S hS
      split at hS
      · cases hS
      · cases hS; exact le_refl _
    · intro a _
      exact ⟨_, rfl, _, rfl, rfl, rfl, rfl, rfl, hlen, hshader⟩
  · apply bind_total
    · refine assignBuffer_returns _ _ _ _ _ ?_
      intro S hS
      split at hS
      · cases hS
      · cases hS; exact le_refl _
    · intro a _
      split
      · apply bind_total
        · exact assignBuffer_returns _ _ _ _ _ (by intro S hS; cases hS; exact le_refl _)
        · intro a1 _
          exact ⟨_, rfl, _, rfl, rfl, rfl, rfl, rfl, hlen, hshader⟩
      · apply bind_total
        · exact assignBuffer_returns _ _ _ _ _ (by intro S _; exact Nat.zero_le _)
        · intro a1 _
          exact ⟨_, rfl, _, rfl, rfl, rfl, rfl, rfl, hlen, hshader⟩

/-- When the 32-bit size `n + 2` of the source copy wraps (effective length
`2 ^ 32 - 2` or `2 ^ 32 - 1`), the block is shorter than `n + 1` bytes and the
store of the newline at index `n` (line 244), if not already the copy before
it, is outside the block. -/
theorem compile_copy_wraps (compileShader : CompilerCall → CompilerRun) (defaults : Options)
    (heap : Heap) (options : bgfx_shaderc_compile_options) (source : List Byte) (size : Nat)
    (varyingSource : Option (List Byte)) (varyingSize : Nat)
    (output messages : Option bgfx_shaderc_buffer)
    (hlt : effectiveSize size source < UINT32_MOD)
    (hwrap : UINT32_MOD ≤ effectiveSize size source + 2) :
    bgfx_shaderc_compile compileShader defaults heap (some options) (some source) size
      varyingSource varyingSize output messages = none := by
  have hn : effectiveSize size source ≠ 0 := by
    intro h0
    rw [h0] at hwrap
    exact absurd hwrap (by decide)
  have hmod : (effectiveSize size source + 2) % UINT32_MOD
      = effectiveSize size source + 2 - UINT32_MOD := by
    rw [Nat.mod_eq_sub_mod hwrap, Nat.mod_eq_of_lt (by omega)]
  have hbig : 2 < UINT32_MOD := by decide
  obtain ⟨-, haread, -⟩ :=
    Heap.alloc_spec heap ((effectiveSize size source + 2) % UINT32_MOD)
  simp only [bgfx_shaderc_compile, hn, if_false, Heap.alloc_spec, Option.bind_eq_bind]
  cases hw1 : (heap.alloc ((effectiveSize size source + 2) % UINT32_MOD)).1.write heap.next 0
      (source.take (effectiveSize size source)) with
  | none => rfl
  | some h1 =>
    obtain ⟨content, updated, hc, -, hu, hul⟩ := Heap.write_some _ _ _ _ _ hw1
    rw [haread] at hc
    cases hc
    have hw2 : h1.write heap.next (effectiveSize size source) [10] = none :=
      Heap.write_fault h1 heap.next _ [10] updated hu (by
        rw [hul, List.length_replicate, hmod]
        simp only [List.length_singleton]
        omega)
    simp only [Option.some_bind, hw2, Option.none_bind]

theorem strlen_append_terminator (s rest : List Byte) (hs : ∀ b ∈ s, b ≠ 0) :
    strlen (s ++ 0 :: rest) = s.length := by
  induction s with
  | nil => simp [strlen]
  | cons b t ih =>
    have hb : b ≠ 0 := hs b (List.mem_cons_self _ _)
    have ht : ∀ c ∈ t, c ≠ 0 := fun c hc => hs c (List.mem_cons_of_mem _ hc)
    simp [strlen, hb, ih ht]

theorem strlen_le_length (s : List Byte) : strlen s ≤ s.length := by
  induction s with
  | nil => simp [strlen]
  | cons b t ih =>
    by_cases hb : b = 0
    · simp [strlen, hb]
    · simp [strlen, hb, ih]

/-- The step that reports a fixed message `K` (a character array with its
terminator) on an `InvalidArgument` return. -/
theorem assign_fixed_text (heap : Heap) (messages : Option bgfx_shaderc_buffer)
    (K : List Byte) (hK : 2 ≤ K.length) :
    ∃ heap1 m1,
      (if (messages.map fun _ => ({ data := none, size := 0 } : bgfx_shaderc_buffer)).isSome then
          assignBuffer heap (messages.map fun _ => { data := none, size := 0 }) (some K)
            (BX_COUNTOF K - 1) true
        else
          some (heap, messages.map fun _ => { data := none, size := 0 })) = some (heap1, m1)
      ∧ (messages = none → m1 = none ∧ heap1 = heap)
      ∧ (∀ m, messages = some m → heap.mallocSucceeds = true →
          m1 = some { data := some heap.next, size := (K.length - 1) % UINT32_MOD }
          ∧ heap1.read heap.next = some (K.take (K.length - 1) ++ [0])
          ∧ heap1.live = heap.next :: heap.live)
      ∧ (∀ m, messages = some m → heap.mallocSucceeds = false →
          m1 = some { data := none, size := 0 } ∧ heap1.live = heap.live) := by
  rcases messages with _ | m
  · exact ⟨heap, none, by simp, by simp, by simp, by simp⟩
  · simp only [Option.map_some', Option.isSome_some, if_true, BX_COUNTOF]
    cases hs : heap.mallocSucceeds with
    | true =>
      obtain ⟨heap1, h, hread, -, hlive, -⟩ :=
        assignBuffer_copy heap { data := none, size := 0 } K (K.length - 1) true hs
          (by omega) (by omega)
      refine ⟨heap1, _, h, by simp, ?_, by simp⟩
      intro m2 _ _
      exact ⟨rfl, by simpa using hread, hlive⟩
    | false =>
      have h := assignBuffer_malloc_fails heap { data := none, size := 0 } (some K)
        (K.length - 1) true hs (Or.inl rfl)
      refine ⟨_, _, h, by simp, by simp, ?_⟩
      intro m2 _ _
      exact ⟨rfl, rfl⟩

theorem kError_text :
    kError.take (kError.length - 1) ++ [0]
        = bytesOf "Invalid arguments passed to bgfx_shaderc_compile.\n" ++ [0]
      ∧ (kError.length - 1) % UINT32_MOD = 50 ∧ 2 ≤ kError.length := by
  decide

theorem kEmpty_text :
    kEmpty.take (kEmpty.length - 1) ++ [0] = bytesOf "Shader source is empty.\n" ++ [0]
      ∧ (kEmpty.length - 1) % UINT32_MOD = 24 ∧ 2 ≤ kEmpty.length := by
  decide

/-- The return taken when the options handle or the source pointer is
`NULL` (lines 213-223). -/
theorem compile_missing_argument (compileShader : CompilerCall → CompilerRun)
    (defaults : Options) (heap : Heap) (options : Option bgfx_shaderc_compile_options)
    (source : Option (List Byte)) (size : Nat) (varyingSource : Option (List Byte))
    (varyingSize : Nat) (output messages : Option bgfx_shaderc_buffer)
    (hnull : options = none ∨ source = none) :
    ∃ r, bgfx_shaderc_compile compileShader defaults heap options source size
          varyingSource varyingSize output messages = some r
      ∧ r.code = BGFX_SHADERC_RESULT_INVALID_ARGUMENT ∧ r.calls = []
      ∧ r.output = output.map (fun _ => { data := none, size := 0 })
      ∧ (messages = none → r.messages = none ∧ r.heap = heap)
      ∧ (∀ m, messages = some m → heap.mallocSucceeds = true →
          r.messages = some { data := some heap.next, size := 50 }
          ∧ r.heap.read heap.next
              = some (bytesOf "Invalid arguments passed to bgfx_shaderc_compile.\n" ++ [0])
          ∧ r.heap.live = heap.next :: heap.live)
      ∧ (∀ m, messages = some m → heap.mallocSucceeds = false →
          r.messages = some { data := none, size := 0 } ∧ r.heap.live = heap.live) := by
  obtain ⟨htext, hsize, hK⟩ := kError_text
  obtain ⟨heap1, m1, h, hnone, hok, hfail⟩ := assign_fixed_text heap messages kError hK
  rw [htext, hsize] at hok
  have hcompile : bgfx_shaderc_compile compileShader defaults heap options source size
      varyingSource varyingSize output messages
      = some { code := BGFX_SHADERC_RESULT_INVALID_ARGUMENT,
               output := output.map (fun _ => { data := none, size := 0 }),
               messages := m1, heap := heap1, calls := [] } := by
    rcases hnull with rfl | rfl
    · simp only [bgfx_shaderc_compile, Option.bind_eq_bind, Option.some_bind]
      split
      · rename_i hc; rw [if_pos hc] at h; rw [h]; rfl
      · rename_i hc; rw [if_neg hc] at h; cases h; rfl
    · cases options <;>
        simp only [bgfx_shaderc_compile, Option.bind_eq_bind, Option.some_bind]
      split
      · rename_i hc; rw [if_pos hc] at h; rw [h]; rfl
      · rename_i hc; rw [if_neg hc] at h; cases h; rfl
      split
      · rename_i hc; rw [if_pos hc] at h; rw [h]; rfl
      · rename_i hc; rw [if_neg hc] at h; cases h; rfl
  exact ⟨_, hcompile, rfl, rfl, rfl, hnone, hok, hfail⟩

/-- The return taken when the effective source length is 0 (lines 231-240). -/
theorem compile_empty_source (compileShader : CompilerCall → CompilerRun)
    (defaults : Options) (heap : Heap) (options : bgfx_shaderc_compile_options)
    (source : List Byte) (size : Nat) (varyingSource : Option (List Byte))
    (varyingSize : Nat) (output messages : Option bgfx_shaderc_buffer)
    (h0 : effectiveSize size source = 0) :
    ∃ r, bgfx_shaderc_compile compileShader defaults heap (some options) (some source) size
          varyingSource varyingSize output messages = some r
      ∧ r.code = BGFX_SHADERC_RESULT_INVALID_ARGUMENT ∧ r.calls = []
      ∧ r.output = output.map (fun _ => { data := none, size := 0 })
      ∧ (messages = none → r.messages = none ∧ r.heap = heap)
      ∧ (∀ m, messages = some m → heap.mallocSucceeds = true →
          r.messages = some { data := some heap.next, size := 24 }
          ∧ r.heap.read heap.next = some (bytesOf "Shader source is empty.\n" ++ [0])
          ∧ r.heap.live = heap.next :: heap.live)
      ∧ (∀ m, messages = some m → heap.mallocSucceeds = false →
          r.messages = some { data := none, size := 0 } ∧ r.heap.live = heap.live) := by
  obtain ⟨htext, hsize, hK⟩ := kEmpty_text
  obtain ⟨heap1, m1, h, hnone, hok, hfail⟩ := assign_fixed_text heap messages kEmpty hK
  rw [htext, hsize] at hok
  have hcompile : bgfx_shaderc_compile compileShader defaults heap (some options) (some source)
      size varyingSource varyingSize output messages
      = some { code := BGFX_SHADERC_RESULT_INVALID_ARGUMENT,
               output := output.map (fun _ => { data := none, size := 0 }),
               messages := m1, heap := heap1, calls := [] } := by
    simp only [bgfx_shaderc_compile, h0, if_true, Option.bind_eq_bind, Option.some_bind]
    split
    · rename_i hc; rw [if_pos hc] at h; rw [h]; rfl
    · rename_i hc; rw [if_neg hc] at h; cases h; rfl
  exact ⟨_, hcompile, rfl, rfl, rfl, hnone, hok, hfail⟩

theorem strlen_replicate_terminated (n : Nat) (c : Byte) (hc : c ≠ 0) (rest : List Byte) :
    strlen (List.replicate n c ++ 0 :: rest) = n := by
  have h := strlen_append_terminator (List.replicate n c) rest
    (fun b hb => by rw [List.eq_of_mem_replicate hb]; exact hc)
  rw [List.length_replicate] at h
  exact h

/-- The loop of `applyStringList` appends the non-null entries among the
next `left` entries from index `ii` on, in order. -/
theorem applyStringList_loop_eq (data : List (Option String)) (left ii : Nat)
    (acc : List String) :
    applyStringList.loop data left ii acc
      = acc ++ ((data.drop ii).take left).filterMap id := by
  induction left generalizing ii acc with
  | zero => simp [applyStringList.loop]
  | succ left ih =>
    by_cases hii : ii < data.length
    · have hdrop : data.drop ii = data[ii] :: data.drop (ii + 1) :=
        List.drop_eq_getElem_cons hii
      have hget : data[ii]? = some data[ii] := List.getElem?_eq_getElem hii
      rw [hdrop, List.take_succ_cons]
      cases hv : data[ii] with
      | none =>
        simp only [applyStringList.loop, hget, hv, ih, List.filterMap_cons, id]
      | some value =>
        simp only [applyStringList.loop, hget, hv, ih, List.filterMap_cons, id,
          List.append_assoc, List.singleton_append]
    · have hnone : data[ii]? = none := List.getElem?_eq_none (by omega)
      have hdrop : data.drop ii = [] := List.drop_eq_nil_of_le (by omega)
      have hdrop1 : data.drop (ii + 1) = [] := List.drop_eq_nil_of_le (by omega)
      simp only [applyStringList.loop, hnone, ih, hdrop, hdrop1, List.take_nil]

/-! ## The claims -/

/-- C1 (amended): for every call with non-null options and a non-null source
whose effective length n (shader_size when it is positive, otherwise the
strlen of the source narrowed to 32 bits) satisfies 1 ≤ n and n + 2 < 2^32,
bgfx_shaderc_compile returns, calls the Compiler once, and returns Success
or Error, never InvalidArgument: Success exactly when the Compiler returns
true and Error exactly when it returns false. -/
theorem C1_compile_success_or_error (compileShader : CompilerCall → CompilerRun)
    (defaults : Options) (heap : Heap) (options : bgfx_shaderc_compile_options)
    (source : List Byte) (size : Nat) (varyingSource : Option (List Byte))
    (varyingSize : Nat) (output messages : Option bgfx_shaderc_buffer)
    (hsize : (0 < size ∧ size + 2 < 2 ^ 32)
      ∨ (size = 0 ∧ 0 < strlen source % 2 ^ 32 ∧ strlen source % 2 ^ 32 + 2 < 2 ^ 32)) :
    ∃ r, bgfx_shaderc_compile compileShader defaults heap (some options) (some source) size
          varyingSource varyingSize output messages = some r
      ∧ (r.code = BGFX_SHADERC_RESULT_SUCCESS ∨ r.code = BGFX_SHADERC_RESULT_ERROR)
      ∧ r.code ≠ BGFX_SHADERC_RESULT_INVALID_ARGUMENT
      ∧ ∃ call, r.calls = [call]
        ∧ (r.code = BGFX_SHADERC_RESULT_SUCCESS ↔ (compileShader call).compiled = true)
        ∧ (r.code = BGFX_SHADERC_RESULT_ERROR ↔ (compileShader call).compiled = false) := by
  have heff : effectiveSize size source ≠ 0 ∧ effectiveSize size source + 2 < UINT32_MOD := by
    rcases hsize with ⟨h1, h2⟩ | ⟨h0, h1, h2⟩
    · have hne : size ≠ 0 := by omega
      simp only [effectiveSize, hne, if_false, UINT32_MOD]
      exact ⟨hne, h2⟩
    · subst h0
      simp only [effectiveSize, if_true, UINT32_MOD]
      exact ⟨by omega, h2⟩
  obtain ⟨r, hr, call, hcalls, hcode, -⟩ :=
    compile_valid compileShader defaults heap options source size varyingSource varyingSize
      output messages heff.1 heff.2
  refine ⟨r, hr, ?_, ?_, call, hcalls, ?_, ?_⟩ <;> rw [hcode] <;>
    cases (compileShader call).compiled <;>
    simp [BGFX_SHADERC_RESULT_SUCCESS, BGFX_SHADERC_RESULT_ERROR,
      BGFX_SHADERC_RESULT_INVALID_ARGUMENT]

/-- C1, at the source "void main(){}" with shader_size 0, both buffers
requested and a Compiler that succeeds: the call returns Success. -/
theorem C1_compile_success_or_error_witness :
    ((0 < 0 ∧ 0 + 2 < 2 ^ 32)
      ∨ (0 = 0 ∧ 0 < strlen (bytesOf "void main(){}" ++ [0]) % 2 ^ 32
          ∧ strlen (bytesOf "void main(){}" ++ [0]) % 2 ^ 32 + 2 < 2 ^ 32))
    ∧ ∃ r, bgfx_shaderc_compile sampleCompiler sampleDefaults emptyHeap (some sampleOptions)
          (some (bytesOf "void main(){}" ++ [0])) 0 none 0 (some emptyBuffer)
          (some emptyBuffer) = some r
      ∧ r.code = BGFX_SHADERC_RESULT_SUCCESS := by
  have hyp : (0 < 0 ∧ 0 + 2 < 2 ^ 32)
      ∨ (0 = 0 ∧ 0 < strlen (bytesOf "void main(){}" ++ [0]) % 2 ^ 32
          ∧ strlen (bytesOf "void main(){}" ++ [0]) % 2 ^ 32 + 2 < 2 ^ 32) :=
    Or.inr ⟨rfl, by decide, by decide⟩
  obtain ⟨r, hr, -, -, call, -, hsucc, -⟩ :=
    C1_compile_success_or_error sampleCompiler sampleDefaults emptyHeap sampleOptions
      (bytesOf "void main(){}" ++ [0]) 0 none 0 (some emptyBuffer) (some emptyBuffer) hyp
  exact ⟨hyp, r, hr, hsucc.mpr rfl⟩

/-- C1 as stated fails: with shader_size 0 and a source string of 2^32
non-zero bytes (length at least 1), the length narrowed to 32 bits is 0 and
the call returns InvalidArgument without calling the Compiler. -/
theorem C1_counterexample_strlen_4GiB :
    strlen (List.replicate 4294967296 (65 : Byte) ++ [0]) = 4294967296
    ∧ ∃ r, bgfx_shaderc_compile sampleCompiler sampleDefaults emptyHeap (some sampleOptions)
          (some (List.replicate 4294967296 (65 : Byte) ++ [0])) 0 none 0 (some emptyBuffer)
          (some emptyBuffer) = some r
      ∧ r.code = BGFX_SHADERC_RESULT_INVALID_ARGUMENT ∧ r.calls = [] := by
  have hstrlen : strlen (List.replicate 4294967296 (65 : Byte) ++ [0]) = 4294967296 :=
    strlen_replicate_terminated 4294967296 65 (by decide) []
  have heff : effectiveSize 0 (List.replicate 4294967296 (65 : Byte) ++ [0]) = 0 := by
    show (if (0 : Nat) = 0 then strlen _ % UINT32_MOD else 0) = 0
    rw [if_pos rfl, hstrlen]
    decide
  obtain ⟨r, hr, hcode, hcalls, -⟩ :=
    compile_empty_source sampleCompiler sampleDefaults emptyHeap sampleOptions
      (List.replicate 4294967296 (65 : Byte) ++ [0]) 0 none 0 (some emptyBuffer)
      (some emptyBuffer) heff
  exact ⟨hstrlen, r, hr, hcode, hcalls⟩

/-- C2: whenever the options handle or the source pointer is null,
bgfx_shaderc_compile returns InvalidArgument; a requested messages buffer
(its malloc succeeding) ends up non-null, its block holding exactly the text
"Invalid arguments passed to bgfx_shaderc_compile.\n" followed by a 0 byte
(reported size 50, the length of the text); a requested artifact buffer ends
up with data = null and size = 0. -/
theorem C2_missing_argument_invalid (compileShader : CompilerCall → CompilerRun)
    (defaults : Options) (heap : Heap) (options : Option bgfx_shaderc_compile_options)
    (source : Option (List Byte)) (size : Nat) (varyingSource : Option (List Byte))
    (varyingSize : Nat) (output messages : Option bgfx_shaderc_buffer)
    (hnull : options = none ∨ source = none) :
    ∃ r, bgfx_shaderc_compile compileShader defaults heap options source size
          varyingSource varyingSize output messages = some r
      ∧ r.code = BGFX_SHADERC_RESULT_INVALID_ARGUMENT
      ∧ (∀ m, messages = some m → heap.mallocSucceeds = true →
          ∃ p, r.messages = some { data := some p, size := 50 }
            ∧ r.heap.read p
                = some (bytesOf "Invalid arguments passed to bgfx_shaderc_compile.\n" ++ [0]))
      ∧ (∀ o, output = some o → r.output = some { data := none, size := 0 }) := by
  obtain ⟨r, hr, hcode, -, hout, -, hmsg, -⟩ :=
    compile_missing_argument compileShader defaults heap options source size varyingSource
      varyingSize output messages hnull
  refine ⟨r, hr, hcode, ?_, ?_⟩
  · intro m hm hs
    obtain ⟨h1, h2, -⟩ := hmsg m hm hs
    exact ⟨heap.next, h1, h2⟩
  · intro o ho
    rw [hout, ho]
    rfl

/-- C2, at a null source pointer with both buffers requested (the handles
holding stale values) on a heap where malloc succeeds. -/
theorem C2_missing_argument_invalid_witness :
    ((some sampleOptions = none ∨ (none : Option (List Byte)) = none))
    ∧ ∃ r, bgfx_shaderc_compile sampleCompiler sampleDefaults emptyHeap (some sampleOptions)
          none 0 none 0 (some { data := some 7, size := 9 })
          (some { data := some 8, size := 3 }) = some r
      ∧ r.code = -1
      ∧ (∃ p, r.messages = some { data := some p, size := 50 }
          ∧ r.heap.read p
              = some (bytesOf "Invalid arguments passed to bgfx_shaderc_compile.\n" ++ [0]))
      ∧ r.output = some { data := none, size := 0 } := by
  obtain ⟨r, hr, hcode, hmsg, hout⟩ :=
    C2_missing_argument_invalid sampleCompiler sampleDefaults emptyHeap (some sampleOptions)
      none 0 none 0 (some { data := some 7, size := 9 }) (some { data := some 8, size := 3 })
      (Or.inr rfl)
  exact ⟨Or.inr rfl, r, hr, hcode, hmsg _ rfl (by decide), hout _ rfl⟩

/-- C3: with non-null options, shader_size = 0 and a source pointer to the
empty string, bgfx_shaderc_compile returns InvalidArgument, and a requested
messages buffer (its malloc succeeding) ends up non-null, its block holding
exactly the text "Shader source is empty.\n" followed by a 0 byte. -/
theorem C3_empty_source_invalid (compileShader : CompilerCall → CompilerRun)
    (defaults : Options) (heap : Heap) (options : bgfx_shaderc_compile_options)
    (source : List Byte) (varyingSource : Option (List Byte))
    (varyingSize : Nat) (output messages : Option bgfx_shaderc_buffer)
    (hempty : strlen source = 0) :
    ∃ r, bgfx_shaderc_compile compileShader defaults heap (some options) (some source) 0
          varyingSource varyingSize output messages = some r
      ∧ r.code = BGFX_SHADERC_RESULT_INVALID_ARGUMENT
      ∧ (∀ m, messages = some m → heap.mallocSucceeds = true →
          ∃ p, r.messages = some { data := some p, size := 24 }
            ∧ r.heap.read p = some (bytesOf "Shader source is empty.\n" ++ [0])) := by
  have heff : effectiveSize 0 source = 0 := by
    show (if (0 : Nat) = 0 then strlen source % UINT32_MOD else 0) = 0
    rw [if_pos rfl, hempty]
    rfl
  obtain ⟨r, hr, hcode, -, -, -, hmsg, -⟩ :=
    compile_empty_source compileShader defaults heap options source 0 varyingSource
      varyingSize output messages heff
  refine ⟨r, hr, hcode, ?_⟩
  intro m hm hs
  obtain ⟨h1, h2, -⟩ := hmsg m hm hs
  exact ⟨heap.next, h1, h2⟩

/-- C3, at the source "" (one terminator byte) with a messages buffer
requested on a heap where malloc succeeds. -/
theorem C3_empty_source_invalid_witness :
    strlen [0] = 0
    ∧ ∃ r, bgfx_shaderc_compile sampleCompiler sampleDefaults emptyHeap (some sampleOptions)
          (some [0]) 0 none 0 none (some emptyBuffer) = some r
      ∧ r.code = -1
      ∧ ∃ p, r.messages = some { data := some p, size := 24 }
          ∧ r.heap.read p = some (bytesOf "Shader source is empty.\n" ++ [0]) := by
  obtain ⟨r, hr, hcode, hmsg⟩ :=
    C3_empty_source_invalid sampleCompiler sampleDefaults emptyHeap sampleOptions [0] none 0
      none (some emptyBuffer) (by decide)
  exact ⟨by decide, r, hr, hcode, hmsg emptyBuffer rfl (by decide)⟩

/-- C4 (amended): when shader_size is 0 and the source points to a
NUL-terminated string, the effective source length is the number of bytes
before the first terminator narrowed to 32 bits, so it equals that number
for every string shorter than 2^32 bytes; and when that number n satisfies
1 ≤ n and n + 2 < 2^32, the Compiler is handed the length n and a copy that
starts with those n bytes. -/
theorem C4_inferred_length (compileShader : CompilerCall → CompilerRun)
    (defaults : Options) (heap : Heap) (options : bgfx_shaderc_compile_options)
    (s rest : List Byte) (varyingSource : Option (List Byte)) (varyingSize : Nat)
    (output messages : Option bgfx_shaderc_buffer)
    (hs : ∀ b ∈ s, b ≠ 0) :
    effectiveSize 0 (s ++ 0 :: rest) = s.length % 2 ^ 32
    ∧ (s.length < 2 ^ 32 → effectiveSize 0 (s ++ 0 :: rest) = s.length)
    ∧ (1 ≤ s.length → s.length + 2 < 2 ^ 32 →
        ∃ r call, bgfx_shaderc_compile compileShader defaults heap (some options)
              (some (s ++ 0 :: rest)) 0 varyingSource varyingSize output messages = some r
          ∧ r.calls = [call] ∧ call.shaderLen = s.length
          ∧ call.shader = s ++ [10, 0] ∧ call.shader.take call.shaderLen = s) := by
  have hstrlen : strlen (s ++ 0 :: rest) = s.length := strlen_append_terminator s rest hs
  have heff : effectiveSize 0 (s ++ 0 :: rest) = s.length % 2 ^ 32 := by
    show (if (0 : Nat) = 0 then strlen _ % UINT32_MOD else 0) = _
    rw [if_pos rfl, hstrlen]
    rfl
  refine ⟨heff, ?_, ?_⟩
  · intro hlt
    rw [heff, Nat.mod_eq_of_lt hlt]
  · intro h1 h2
    have heff2 : effectiveSize 0 (s ++ 0 :: rest) = s.length := by
      rw [heff, Nat.mod_eq_of_lt (by omega)]
    obtain ⟨r, hr, call, hcalls, -, hlen, -, -, -, hshader⟩ :=
      compile_valid compileShader defaults heap options (s ++ 0 :: rest) 0 varyingSource
        varyingSize output messages (by rw [heff2]; omega) (by rw [heff2]; exact h2)
    rw [heff2] at hlen hshader
    have hcopy : call.shader = s ++ [10, 0] := by
      rw [hshader (by simp), List.take_left]
    refine ⟨r, call, hr, hcalls, hlen, hcopy, ?_⟩
    rw [hcopy, hlen, List.take_left]

/-- C4, at the source "void main(){}" with shader_size 0: the Compiler is
handed the length 13 and a copy of the 13 bytes, a newline and a terminator. -/
theorem C4_inferred_length_witness :
    (∀ b ∈ bytesOf "void main(){}", b ≠ 0)
    ∧ ∃ r call, bgfx_shaderc_compile sampleCompiler sampleDefaults emptyHeap
          (some sampleOptions) (some (bytesOf "void main(){}" ++ 0 :: [])) 0 none 0 none none
          = some r
      ∧ r.calls = [call] ∧ call.shaderLen = (bytesOf "void main(){}").length
      ∧ call.shader = bytesOf "void main(){}" ++ [10, 0]
      ∧ call.shader.take call.shaderLen = bytesOf "void main(){}" :=
  ⟨by decide,
    (C4_inferred_length sampleCompiler sampleDefaults emptyHeap sampleOptions
      (bytesOf "void main(){}") [] none 0 none none (by decide)).2.2 (by decide) (by decide)⟩

/-- C4 as stated fails: with shader_size 0 and a source string of 2^32 + 5
non-zero bytes, the Compiler is handed the length 5 and a copy of the first
5 bytes only. -/
theorem C4_counterexample_length_wraps :
    strlen (List.replicate 4294967301 (65 : Byte) ++ [0]) = 4294967301
    ∧ ∃ r call, bgfx_shaderc_compile sampleCompiler sampleDefaults emptyHeap
          (some sampleOptions) (some (List.replicate 4294967301 (65 : Byte) ++ [0])) 0
          none 0 none none = some r
      ∧ r.calls = [call] ∧ call.shaderLen = 5
      ∧ call.shader = [65, 65, 65, 65, 65, 10, 0] := by
  have hstrlen : strlen (List.replicate 4294967301 (65 : Byte) ++ [0]) = 4294967301 :=
    strlen_replicate_terminated 4294967301 65 (by decide) []
  have heff : effectiveSize 0 (List.replicate 4294967301 (65 : Byte) ++ [0]) = 5 := by
    show (if (0 : Nat) = 0 then strlen _ % UINT32_MOD else 0) = 5
    rw [if_pos rfl, hstrlen]
    decide
  obtain ⟨r, hr, call, hcalls, -, hlen, -, -, -, hshader⟩ :=
    compile_valid sampleCompiler sampleDefaults emptyHeap sampleOptions
      (List.replicate 4294967301 (65 : Byte) ++ [0]) 0 none 0 none none
      (by rw [heff]; decide) (by rw [heff]; decide)
  rw [heff] at hlen hshader
  have htake : List.take 5 (List.replicate 4294967301 (65 : Byte) ++ [0])
      = [65, 65, 65, 65, 65] := by
    rw [List.take_append_of_le_length (by rw [List.length_replicate]; decide),
      List.take_replicate]
    rfl
  refine ⟨hstrlen, r, call, hr, hcalls, hlen, ?_⟩
  rw [hshader (by rw [List.length_append, List.length_replicate]; decide), htake]
  rfl

/-- C5 (amended): for every byte sequence S of fewer than 2^32 bytes
(the empty one included), assignBuffer on a non-null destination with S and
nullTerminate = true (malloc succeeding) yields a buffer whose reported size
is len(S) and whose block has exactly len(S) + 1 bytes: the bytes of S
followed by the 0 terminator at index len(S). -/
theorem C5_assignBuffer_round_trip (heap : Heap) (b : bgfx_shaderc_buffer) (S : List Byte)
    (hs : heap.mallocSucceeds = true) (hlen : S.length < 2 ^ 32) :
    ∃ heap1 memory content,
      assignBuffer heap (some b) (some S) S.length true
        = some (heap1, some { data := some memory, size := S.length })
      ∧ heap1.read memory = some content
      ∧ content.length = S.length + 1
      ∧ content.take S.length = S
      ∧ content[S.length]? = some 0 := by
  by_cases hn : S.length = 0
  · obtain ⟨heap1, h, hread, -⟩ :=
      assignBuffer_empty_terminated heap b (some S) S.length hs (Or.inl hn)
    have hS : S = [] := List.length_eq_zero.mp hn
    subst hS
    exact ⟨heap1, heap.next, [0], h, hread, rfl, rfl, rfl⟩
  · obtain ⟨heap1, h, hread, -⟩ := assignBuffer_copy heap b S S.length true hs hn (le_refl _)
    have hmod : S.length % UINT32_MOD = S.length := Nat.mod_eq_of_lt hlen
    rw [hmod] at h
    rw [List.take_length] at hread
    refine ⟨heap1, heap.next, S ++ [0], h, by simpa using hread, by simp, by simp, by simp⟩

/-- C5, at the three bytes "abc" on a heap where malloc succeeds. -/
theorem C5_assignBuffer_round_trip_witness :
    emptyHeap.mallocSucceeds = true ∧ (bytesOf "abc").length < 2 ^ 32
    ∧ ∃ heap1 memory content,
      assignBuffer emptyHeap (some emptyBuffer) (some (bytesOf "abc")) (bytesOf "abc").length
          true
        = some (heap1, some { data := some memory, size := (bytesOf "abc").length })
      ∧ heap1.read memory = some content
      ∧ content.length = (bytesOf "abc").length + 1
      ∧ content.take (bytesOf "abc").length = bytesOf "abc"
      ∧ content[(bytesOf "abc").length]? = some 0 :=
  ⟨by decide, by decide,
    C5_assignBuffer_round_trip emptyHeap emptyBuffer (bytesOf "abc") (by decide) (by decide)⟩

/-- C5 as stated fails: for a sequence S of 2^32 bytes the block holds S and
the terminator, but the reported size is 0, not len(S). -/
theorem C5_counterexample_size_wraps :
    (List.replicate 4294967296 (65 : Byte)).length = 4294967296
    ∧ ∃ heap1 memory,
      assignBuffer emptyHeap (some emptyBuffer) (some (List.replicate 4294967296 (65 : Byte)))
          4294967296 true
        = some (heap1, some { data := some memory, size := 0 })
      ∧ heap1.read memory = some (List.replicate 4294967296 (65 : Byte) ++ [0]) := by
  have hlen : (List.replicate 4294967296 (65 : Byte)).length = 4294967296 :=
    List.length_replicate _ _
  obtain ⟨heap1, h, hread, -⟩ :=
    assignBuffer_copy emptyHeap emptyBuffer (List.replicate 4294967296 (65 : Byte))
      4294967296 true (by decide) (by decide) (by rw [hlen])
  have hmod : 4294967296 % UINT32_MOD = 0 := by decide
  rw [hmod] at h
  have htake : List.take 4294967296 (List.replicate 4294967296 (65 : Byte))
      = List.replicate 4294967296 (65 : Byte) :=
    List.take_of_length_le (by rw [hlen])
  rw [htake] at hread
  exact ⟨hlen, heap1, emptyHeap.next, h, hread⟩

/-- C6: bgfx_shaderc_free_buffer on a handle whose data pointer is non-null
frees that pointer once and leaves the handle with data = null and size = 0;
on a null handle or a null data pointer it changes nothing. So a second
release of the same handle, or a release of a never-populated handle, leaves
the handle empty, and release applied twice equals release applied once. -/
theorem C6_free_buffer_idempotent (heap : Heap) (handle : Option bgfx_shaderc_buffer)
    (p : Addr) (size : Nat) :
    (bgfx_shaderc_free_buffer heap (some { data := some p, size := size })
        = (heap.free p, some { data := none, size := 0 })
      ∧ (heap.free p).freed = p :: heap.freed ∧ p ∉ (heap.free p).live)
    ∧ bgfx_shaderc_free_buffer heap none = (heap, none)
    ∧ bgfx_shaderc_free_buffer heap (some { data := none, size := size })
        = (heap, some { data := none, size := size })
    ∧ bgfx_shaderc_free_buffer
          (bgfx_shaderc_free_buffer heap (some { data := some p, size := size })).1
          (bgfx_shaderc_free_buffer heap (some { data := some p, size := size })).2
        = (heap.free p, some { data := none, size := 0 })
    ∧ bgfx_shaderc_free_buffer heap (some { data := none, size := 0 })
        = (heap, some { data := none, size := 0 })
    ∧ bgfx_shaderc_free_buffer (bgfx_shaderc_free_buffer heap handle).1
          (bgfx_shaderc_free_buffer heap handle).2
        = bgfx_shaderc_free_buffer heap handle := by
  refine ⟨⟨rfl, rfl, ?_⟩, rfl, rfl, rfl, rfl, ?_⟩
  · simp [Heap.free, Heap.live]
  · rcases handle with _ | ⟨_ | q, n⟩ <;> rfl

/-- C7: applyStringList sets the output to exactly the non-null entries
among the first count entries of data, in their original order, whatever
the output held before; the output is empty when data is null or count is
0; and an array of 5 pointers whose 2nd and 4th are null yields the 3
non-null strings in order. -/
theorem C7_applyStringList_filters (data : List (Option String)) (count : Nat)
    (output : List String) :
    applyStringList { data := some data, count := count } output
        = (data.take count).filterMap id
    ∧ applyStringList { data := none, count := count } output = []
    ∧ applyStringList { data := some data, count := 0 } output = []
    ∧ applyStringList { data := some [some "a", none, some "b", none, some "c"], count := 5 }
        output = ["a", "b", "c"] := by
  refine ⟨?_, rfl, rfl, rfl⟩
  by_cases hc : count = 0
  · subst hc
    rfl
  · simp only [applyStringList, hc, if_false, applyStringList_loop_eq, List.drop_zero,
      List.nil_append]

/-- C8: populateOptions sets the native optimizationLevel to
min(optimization_level, 3): it lies in [0, 3], equals the input when the
input is at most 3 (0 stays 0) and is 3 for every larger input (7 becomes
3). -/
theorem C8_optimization_level_clamped (defaults : Options)
    (input : bgfx_shaderc_compile_options) (output : Options) :
    (populateOptions defaults input output).optimizationLevel = min input.optimization_level 3
    ∧ (populateOptions defaults input output).optimizationLevel ≤ 3
    ∧ (input.optimization_level ≤ 3 →
        (populateOptions defaults input output).optimizationLevel = input.optimization_level)
    ∧ (3 < input.optimization_level →
        (populateOptions defaults input output).optimizationLevel = 3)
    ∧ (populateOptions defaults { input with optimization_level := 7 } output).optimizationLevel
        = 3
    ∧ (populateOptions defaults { input with optimization_level := 0 } output).optimizationLevel
        = 0 := by
  refine ⟨rfl, ?_, ?_, ?_, rfl, rfl⟩
  · exact Nat.min_le_right _ _
  · intro h
    exact Nat.min_eq_left h
  · intro h
    exact Nat.min_eq_right (Nat.le_of_lt h)

/-- C9: populateOptions produces native options whose inputFilePath is
input_path when that is non-null and "<memory>" otherwise, whose
outputFilePath is output_path when non-null and "" otherwise, and whose
platform and profile are the foreign strings when non-null and those of the
default-constructed Options otherwise; the result does not depend on what
the output record held before. -/
theorem C9_paths_and_defaults (defaults : Options) (input : bgfx_shaderc_compile_options)
    (output output2 : Options) :
    (populateOptions defaults input output).inputFilePath = input.input_path.getD "<memory>"
    ∧ (populateOptions defaults input output).outputFilePath = input.output_path.getD ""
    ∧ (populateOptions defaults input output).platform = input.platform.getD defaults.platform
    ∧ (populateOptions defaults input output).profile = input.profile.getD defaults.profile
    ∧ populateOptions defaults input output = populateOptions defaults input output2 := by
  refine ⟨?_, ?_, ?_, ?_, rfl⟩
  · cases h : input.input_path <;> simp [populateOptions, h]
  · cases h : input.output_path <;> simp [populateOptions, h]
  · cases h : input.platform <;> simp [populateOptions, h]
  · cases h : input.profile <;> simp [populateOptions, h]

/-- C10: populateOptions copies the shader-stage tag verbatim and each of the
thirteen boolean flags to its same-named native field unchanged. -/
theorem C10_flags_copied (defaults : Options) (input : bgfx_shaderc_compile_options)
    (output : Options) :
    (populateOptions defaults input output).shaderType = input.shader_type
    ∧ (populateOptions defaults input output).disasm = input.disasm
    ∧ (populateOptions defaults input output).raw = input.raw
    ∧ (populateOptions defaults input output).preprocessOnly = input.preprocess_only
    ∧ (populateOptions defaults input output).depends = input.depends
    ∧ (populateOptions defaults input output).debugInformation = input.debug_information
    ∧ (populateOptions defaults input output).avoidFlowControl = input.avoid_flow_control
    ∧ (populateOptions defaults input output).noPreshader = input.no_preshader
    ∧ (populateOptions defaults input output).partialPrecision = input.partial_precision
    ∧ (populateOptions defaults input output).preferFlowControl = input.prefer_flow_control
    ∧ (populateOptions defaults input output).backwardsCompatibility
        = input.backwards_compatibility
    ∧ (populateOptions defaults input output).warningsAreErrors = input.warnings_are_errors
    ∧ (populateOptions defaults input output).keepIntermediate = input.keep_intermediate
    ∧ (populateOptions defaults input output).optimize = input.optimize :=
  ⟨rfl, rfl, rfl, rfl, rfl, rfl, rfl, rfl, rfl, rfl, rfl, rfl, rfl, rfl⟩

/-! ## Further lemmas: the sinks, and the calls that reach the Compiler -/

/-- The two sinks after the Compiler's writes hold what they held before
followed by the bytes written to each, in write order. -/
theorem runWrites_eq (writes : List WriteCall) (a b : List Byte) :
    runWrites writes (a, b) = (a ++ artifactBytes writes, b ++ diagnosticBytes writes) := by
  induction writes generalizing a b with
  | nil => simp [runWrites, artifactBytes, diagnosticBytes]
  | cons w rest ih =>
    have hstep : ∀ s, runWrites (w :: rest) s
        = runWrites rest (match w with
            | .shader data size => ((VectorWriter.write s.1 data size).1, s.2)
            | .message data size => (s.1, (StringWriter.write s.2 data size).1)) := by
      intro s; rfl
    rw [hstep]
    cases w with
    | shader data size =>
      by_cases h0 : size = 0
      · subst h0
        simp [VectorWriter.write, ih, artifactBytes, diagnosticBytes, chunkOf]
      · simp [VectorWriter.write, h0, ih, artifactBytes, diagnosticBytes, chunkOf]
    | message data size =>
      by_cases h0 : size = 0
      · subst h0
        simp [StringWriter.write, ih, artifactBytes, diagnosticBytes, chunkOf]
      · simp [StringWriter.write, h0, ih, artifactBytes, diagnosticBytes, chunkOf]

/-- Whenever the 32-bit size `n + 2` of the source copy wraps, the entry
point stores outside the block. -/
theorem compile_copy_wraps_any (compileShader : CompilerCall → CompilerRun)
    (defaults : Options) (heap : Heap) (options : bgfx_shaderc_compile_options)
    (source : List Byte) (size : Nat) (varyingSource : Option (List Byte))
    (varyingSize : Nat) (output messages : Option bgfx_shaderc_buffer)
    (hwrap : UINT32_MOD ≤ effectiveSize size source + 2) :
    bgfx_shaderc_compile compileShader defaults heap (some options) (some source) size
      varyingSource varyingSize output messages = none := by
  have hbig : 2 < UINT32_MOD := by decide
  have hn : effectiveSize size source ≠ 0 := by
    intro h0
    rw [h0] at hwrap
    omega
  have hmod : (effectiveSize size source + 2) % UINT32_MOD ≤ effectiveSize size source := by
    rw [Nat.mod_eq_sub_mod hwrap]
    exact le_trans (Nat.mod_le _ _) (by omega)
  obtain ⟨-, haread, -⟩ :=
    Heap.alloc_spec heap ((effectiveSize size source + 2) % UINT32_MOD)
  simp only [bgfx_shaderc_compile, hn, if_false, Heap.alloc_spec, Option.bind_eq_bind]
  cases hw1 : (heap.alloc ((effectiveSize size source + 2) % UINT32_MOD)).1.write heap.next 0
      (source.take (effectiveSize size source)) with
  | none => rfl
  | some h1 =>
    obtain ⟨content, updated, hc, -, hu, hul⟩ := Heap.write_some _ _ _ _ _ hw1
    rw [haread] at hc
    cases hc
    have hw2 : h1.write heap.next (effectiveSize size source) [10] = none :=
      Heap.write_fault h1 heap.next _ [10] updated hu (by
        rw [hul, List.length_replicate]
        simp only [List.length_singleton]
        omega)
    simp only [Option.some_bind, hw2, Option.none_bind]

/-- A call that returns having called the Compiler had options and source
present and an effective length `n` with `1 ≤ n` and `n + 2 < 2 ^ 32`. -/
theorem compile_reaches (compileShader : CompilerCall → CompilerRun)
    (defaults : Options) (heap : Heap) (options : bgfx_shaderc_compile_options)
    (source : List Byte) (size : Nat) (varyingSource : Option (List Byte))
    (varyingSize : Nat) (output messages : Option bgfx_shaderc_buffer) (r : CompileResult)
    (hr : bgfx_shaderc_compile compileShader defaults heap (some options) (some source) size
      varyingSource varyingSize output messages = some r)
    (hcalls : r.calls ≠ []) :
    effectiveSize size source ≠ 0 ∧ effectiveSize size source + 2 < UINT32_MOD := by
  constructor
  · intro h0
    obtain ⟨r1, hr1, -, hc, -⟩ :=
      compile_empty_source compileShader defaults heap options source size varyingSource
        varyingSize output messages h0
    rw [hr] at hr1
    cases hr1
    exact hcalls hc
  · by_contra hge
    rw [compile_copy_wraps_any compileShader defaults heap options source size varyingSource
      varyingSize output messages (by omega)] at hr
    cases hr

/-- The path through the Compiler, stage by stage: the heap `h3` after the
source copy was made, the call of the Compiler (which may release the copy),
the hand-over of the artifact sink (leaving the heap `heapA`) and then of the
diagnostics sink. -/
theorem compile_drain (compileShader : CompilerCall → CompilerRun) (defaults : Options)
    (heap : Heap) (options : bgfx_shaderc_compile_options) (source : List Byte) (size : Nat)
    (varyingSource : Option (List Byte)) (varyingSize : Nat)
    (output messages : Option bgfx_shaderc_buffer)
    (hn : effectiveSize size source ≠ 0)
    (hfit : effectiveSize size source + 2 < UINT32_MOD) :
    ∃ r, bgfx_shaderc_compile compileShader defaults heap (some options) (some source) size
          varyingSource varyingSize output messages = some r
      ∧ ∃ call h3 heapA, r.calls = [call]
        ∧ r.code = (if (compileShader call).compiled then BGFX_SHADERC_RESULT_SUCCESS
                    else BGFX_SHADERC_RESULT_ERROR)
        ∧ call.shaderLen = effectiveSize size source
        ∧ call.comment = ""
        ∧ h3.read heap.next = some call.shader
        ∧ (∀ q, q ≠ heap.next → h3.read q = heap.read q)
        ∧ h3.live = heap.next :: heap.live ∧ h3.next = heap.next + 1
        ∧ h3.script = heap.script ∧ h3.freed = heap.freed
        ∧ (output = none →
            heapA = (compileShader call).heapAfter h3 heap.next ∧ r.output = none)
        ∧ (output ≠ none →
            assignBuffer ((compileShader call).heapAfter h3 heap.next)
              (some { data := none, size := 0 })
              (if (runWrites (compileShader call).writes ([], [])).1.isEmpty then none
               else some (runWrites (compileShader call).writes ([], [])).1)
              (runWrites (compileShader call).writes ([], [])).1.length false
              = some (heapA, r.output))
        ∧ (messages = none → r.heap = heapA ∧ r.messages = none)
        ∧ (messages ≠ none →
            (if (runWrites (compileShader call).writes ([], [])).2.length > 0 then
              assignBuffer heapA (some { data := none, size := 0 })
                (some (runWrites (compileShader call).writes ([], [])).2)
                (runWrites (compileShader call).writes ([], [])).2.length true
             else
              assignBuffer heapA (some { data := none, size := 0 }) (some [0]) 0 true)
              = some (r.heap, r.messages)) := by
  obtain ⟨h1, h2, h3, shader, hw1, hw2, hw3, hr3, -, -, hframe, hlive, hnext, hscript,
    hfreed⟩ := prepare_source heap source (effectiveSize size source) hfit
  simp only [bgfx_shaderc_compile, hn, if_false, hw1, Heap.alloc_spec, hw2, hw3, hr3,
    Option.bind_eq_bind, Option.some_bind]
  rcases output with _ | ob <;> rcases messages with _ | mb <;>
    simp only [Option.map_none', Option.map_some', Option.isSome_none, Option.isSome_some,
      if_true, if_false, Bool.false_eq_true]
  · exact ⟨_, rfl, _, h3, _, rfl, rfl, rfl, rfl, hr3, hframe, hlive, hnext, hscript, hfreed,
      fun _ => ⟨rfl, rfl⟩, fun h => absurd rfl h, fun _ => ⟨rfl, rfl⟩, fun h => absurd rfl h⟩
  · split
    · rename_i hpos
      apply bind_total
      · exact assignBuffer_returns _ _ _ _ _ (by intro S hS; cases hS; exact le_refl _)
      · intro a ha
        refine ⟨_, rfl, _, h3, _, rfl, rfl, rfl, rfl, hr3, hframe, hlive, hnext, hscript,
          hfreed, fun _ => ⟨rfl, rfl⟩, fun h => absurd rfl h, (fun h => nomatch h), fun _ => ?_⟩
        show (if _ then _ else _) = _
        rw [if_pos hpos]
        exact ha
    · rename_i hpos
      apply bind_total
      · exact assignBuffer_returns _ _ _ _ _ (by intro S _; exact Nat.zero_le _)
      · intro a ha
        refine ⟨_, rfl, _, h3, _, rfl, rfl, rfl, rfl, hr3, hframe, hlive, hnext, hscript,
          hfreed, fun _ => ⟨rfl, rfl⟩, fun h => absurd rfl h, (fun h => nomatch h), fun _ => ?_⟩
        show (if _ then _ else _) = _
        rw [if_neg hpos]
        exact ha
  · apply bind_total
    · refine assignBuffer_returns _ _ _ _ _ ?_
      intro S hS
      split at hS
      · cases hS
      · cases hS; exact le_refl _
    · intro a ha
      exact ⟨_, rfl, _, h3, a.1, rfl, rfl, rfl, rfl, hr3, hframe, hlive, hnext, hscript,
        hfreed, (fun h => nomatch h), fun _ => ha, fun _ => ⟨rfl, rfl⟩, fun h => absurd rfl h⟩
  · apply bind_total
    · refine assignBuffer_returns _ _ _ _ _ ?_
      intro S hS
      split at hS
      · cases hS
      · cases hS; exact le_refl _
    · intro a ha
      split
      · rename_i hpos
        apply bind_total
        · exact assignBuffer_returns _ _ _ _ _ (by intro S hS; cases hS; exact le_refl _)
        · intro a1 ha1
          refine ⟨_, rfl, _, h3, a.1, rfl, rfl, rfl, rfl, hr3, hframe, hlive, hnext, hscript,
            hfreed, (fun h => nomatch h), fun _ => ha, (fun h => nomatch h), fun _ => ?_⟩
          show (if _ then _ else _) = _
          rw [if_pos hpos]
          exact ha1
      · rename_i hpos
        apply bind_total
        · exact assignBuffer_returns _ _ _ _ _ (by intro S _; exact Nat.zero_le _)
        · intro a1 ha1
          refine ⟨_, rfl, _, h3, a.1, rfl, rfl, rfl, rfl, hr3, hframe, hlive, hnext, hscript,
            hfreed, (fun h => nomatch h), fun _ => ha, (fun h => nomatch h), fun _ => ?_⟩
          show (if _ then _ else _) = _
          rw [if_neg hpos]
          exact ha1

/-- The hand-over of the artifact sink `od` (lines 280-286), by cases: the
sink is empty, or the `malloc` succeeds, or it fails. -/
theorem drain_output_cases (h heapA : Heap) (od : List Byte)
    (out : Option bgfx_shaderc_buffer)
    (hstage : assignBuffer h (some { data := none, size := 0 })
      (if od.isEmpty then none else some od) od.length false = some (heapA, out)) :
    (od = [] ∧ heapA = h ∧ out = some { data := none, size := 0 })
    ∨ (od ≠ [] ∧ h.mallocSucceeds = true
        ∧ out = some { data := some h.next, size := od.length % UINT32_MOD }
        ∧ heapA.read h.next = some od
        ∧ (∀ q, q ≠ h.next → heapA.read q = h.read q)
        ∧ heapA.live = h.next :: h.live ∧ heapA.next = h.next + 1
        ∧ heapA.script = h.script.tail ∧ heapA.freed = h.freed)
    ∨ (od ≠ [] ∧ h.mallocSucceeds = false ∧ out = some { data := none, size := 0 }
        ∧ heapA = { h with script := h.script.tail }) := by
  by_cases hod : od = []
  · subst hod
    have hplain := assignBuffer_empty_plain h { data := none, size := 0 }
      (if ([] : List Byte).isEmpty then none else some []) ([] : List Byte).length
      (Or.inl rfl)
    rw [hplain] at hstage
    cases hstage
    exact Or.inl ⟨rfl, rfl, rfl⟩
  · have hne : od.length ≠ 0 := fun h0 => hod (List.length_eq_zero.mp h0)
    have hdata : (if od.isEmpty then none else some od) = some od := by
      cases od with
      | nil => exact absurd rfl hod
      | cons b t => rfl
    rw [hdata] at hstage
    cases hs : h.mallocSucceeds with
    | true =>
      obtain ⟨heap1, h1, hread, hframe, hlive, hnext, hscript, hfreed⟩ :=
        assignBuffer_copy h { data := none, size := 0 } od od.length false hs hne (le_refl _)
      rw [h1] at hstage
      cases hstage
      rw [List.take_length] at hread
      exact Or.inr (Or.inl ⟨hod, rfl, rfl, by simpa using hread, hframe, hlive, hnext,
        hscript, hfreed⟩)
    | false =>
      rw [assignBuffer_malloc_fails h _ (some od) od.length false hs
        (Or.inr (by simp [hne]))] at hstage
      cases hstage
      exact Or.inr (Or.inr ⟨hod, rfl, rfl, rfl⟩)

/-- The hand-over of the diagnostics sink `md` (lines 288-299), by cases: the
`malloc` succeeds, or it fails. -/
theorem drain_messages_cases (h heapB : Heap) (md : List Byte)
    (msg : Option bgfx_shaderc_buffer)
    (hstage : (if md.length > 0 then
        assignBuffer h (some { data := none, size := 0 }) (some md) md.length true
      else
        assignBuffer h (some { data := none, size := 0 }) (some [0]) 0 true)
      = some (heapB, msg)) :
    (h.mallocSucceeds = true
        ∧ msg = some { data := some h.next, size := md.length % UINT32_MOD }
        ∧ heapB.read h.next = some (md ++ [0])
        ∧ (∀ q, q ≠ h.next → heapB.read q = h.read q)
        ∧ heapB.live = h.next :: h.live ∧ heapB.next = h.next + 1
        ∧ heapB.script = h.script.tail ∧ heapB.freed = h.freed)
    ∨ (h.mallocSucceeds = false ∧ msg = some { data := none, size := 0 }
        ∧ heapB = { h with script := h.script.tail }) := by
  by_cases hpos : md.length > 0
  · rw [if_pos hpos] at hstage
    cases hs : h.mallocSucceeds with
    | true =>
      obtain ⟨heap1, h1, hread, hframe, hlive, hnext, hscript, hfreed⟩ :=
        assignBuffer_copy h { data := none, size := 0 } md md.length true hs (by omega)
          (le_refl _)
      rw [h1] at hstage
      cases hstage
      rw [List.take_length] at hread
      exact Or.inl ⟨rfl, rfl, by simpa using hread, hframe, hlive, hnext, hscript, hfreed⟩
    | false =>
      rw [assignBuffer_malloc_fails h _ (some md) md.length true hs (Or.inl rfl)] at hstage
      cases hstage
      exact Or.inr ⟨rfl, rfl, rfl⟩
  · rw [if_neg hpos] at hstage
    have hmd : md = [] := List.length_eq_zero.mp (by omega)
    subst hmd
    cases hs : h.mallocSucceeds with
    | true =>
      obtain ⟨heap1, h1, hread, hframe, hlive, hnext, hscript, hfreed⟩ :=
        assignBuffer_empty_terminated h { data := none, size := 0 } (some [0]) 0 hs
          (Or.inl rfl)
      rw [h1] at hstage
      cases hstage
      exact Or.inl ⟨rfl, rfl, by simpa using hread, hframe, hlive, hnext, hscript, hfreed⟩
    | false =>
      rw [assignBuffer_malloc_fails h _ (some [0]) 0 true hs (Or.inl rfl)] at hstage
      cases hstage
      exact Or.inr ⟨rfl, rfl, rfl⟩

theorem mallocSucceeds_of_script (h : Heap) (hs : false ∉ h.script) :
    h.mallocSucceeds = true := by
  unfold Heap.mallocSucceeds
  rcases hsc : h.script with _ | ⟨b, rest⟩
  · rfl
  · cases b
    · rw [hsc] at hs
      exact absurd (List.mem_cons_self _ _) hs
    · rfl

theorem not_mem_tail_script (l : List Bool) (hs : false ∉ l) : false ∉ l.tail :=
  fun h => hs (List.mem_of_mem_tail h)

/-- What the hand-over of the artifact sink `od` leaves, whichever case it
takes: `h3` is the heap before, `heapA` the heap after, `rout` the pointee of
`_output` after. -/
theorem drain_output_facts (h3 heapA : Heap) (output rout : Option bgfx_shaderc_buffer)
    (od : List Byte)
    (hO1 : output = none → heapA = h3 ∧ rout = none)
    (hO2 : output ≠ none →
      assignBuffer h3 (some { data := none, size := 0 })
        (if od.isEmpty then none else some od) od.length false = some (heapA, rout)) :
    (∀ q, q ≠ h3.next → heapA.read q = h3.read q)
    ∧ (heapA.next = h3.next ∨ heapA.next = h3.next + 1)
    ∧ (∀ q, q ∈ h3.live → q ∈ heapA.live)
    ∧ heapA.freed = h3.freed
    ∧ (false ∉ h3.script → false ∉ heapA.script)
    ∧ (output = none → rout = none)
    ∧ (output ≠ none → od = [] → rout = some { data := none, size := 0 })
    ∧ (output ≠ none → od ≠ [] → h3.mallocSucceeds = true →
        rout = some { data := some h3.next, size := od.length % UINT32_MOD })
    ∧ (output ≠ none → h3.mallocSucceeds = false → rout = some { data := none, size := 0 })
    ∧ (∀ p n, rout = some { data := some p, size := n } →
        p = h3.next ∧ heapA.next = h3.next + 1 ∧ heapA.read p = some od
          ∧ n = od.length % UINT32_MOD) := by
  by_cases hout : output = none
  · obtain ⟨hA, hR⟩ := hO1 hout
    subst hA hR
    refine ⟨fun _ _ => rfl, Or.inl rfl, fun _ hq => hq, rfl, fun hs => hs, fun _ => rfl,
      fun h => absurd hout h, fun h => absurd hout h, fun h => absurd hout h, ?_⟩
    intro p n hp
    cases hp
  · rcases drain_output_cases h3 heapA od rout (hO2 hout) with
      ⟨hod, hA, hR⟩ | ⟨hod, hs, hR, hread, hframe, hlive, hnext, hscript, hfreed⟩ |
        ⟨hod, hs, hR, hA⟩
    · subst hA hR
      refine ⟨fun _ _ => rfl, Or.inl rfl, fun _ hq => hq, rfl, fun hs => hs,
        fun h => absurd h hout, fun _ _ => rfl, fun _ h => absurd hod h, fun _ _ => rfl, ?_⟩
      intro p n hp
      cases hp
    · subst hR
      refine ⟨hframe, Or.inr hnext, ?_, hfreed, ?_, fun h => absurd h hout,
        fun _ h => absurd h hod, fun _ _ _ => rfl, ?_, ?_⟩
      · intro q hq
        rw [hlive]
        exact List.mem_cons_of_mem _ hq
      · intro hsc
        rw [hscript]
        exact not_mem_tail_script _ hsc
      · intro _ hf
        rw [hs] at hf
        cases hf
      · intro p n hp
        cases hp
        exact ⟨rfl, hnext, hread, rfl⟩
    · subst hA hR
      refine ⟨fun _ _ => rfl, Or.inl rfl, fun _ hq => hq, rfl, ?_, fun h => absurd h hout,
        fun _ h => absurd h hod, ?_, fun _ _ => rfl, ?_⟩
      · intro hsc
        exact not_mem_tail_script _ hsc
      · intro _ _ ht
        rw [hs] at ht
        cases ht
      · intro p n hp
        cases hp

/-- What the hand-over of the diagnostics sink `md` leaves: `heapA` is the
heap before, `heapB` the heap after, `rmsg` the pointee of `_messages`
after. -/
theorem drain_messages_facts (heapA heapB : Heap)
    (messages rmsg : Option bgfx_shaderc_buffer) (md : List Byte)
    (hM1 : messages = none → heapB = heapA ∧ rmsg = none)
    (hM2 : messages ≠ none →
      (if md.length > 0 then
        assignBuffer heapA (some { data := none, size := 0 }) (some md) md.length true
       else
        assignBuffer heapA (some { data := none, size := 0 }) (some [0]) 0 true)
        = some (heapB, rmsg)) :
    (∀ q, q ≠ heapA.next → heapB.read q = heapA.read q)
    ∧ (∀ q, q ∈ heapA.live → q ∈ heapB.live)
    ∧ heapB.freed = heapA.freed
    ∧ (messages = none → rmsg = none)
    ∧ (messages ≠ none → heapA.mallocSucceeds = true →
        rmsg = some { data := some heapA.next, size := md.length % UINT32_MOD })
    ∧ (messages ≠ none → heapA.mallocSucceeds = false →
        rmsg = some { data := none, size := 0 })
    ∧ (∀ p n, rmsg = some { data := some p, size := n } →
        p = heapA.next ∧ n = md.length % UINT32_MOD
          ∧ heapB.read p = some (md ++ [0])) := by
  by_cases hmsg : messages = none
  · obtain ⟨hB, hR⟩ := hM1 hmsg
    subst hB hR
    refine ⟨fun _ _ => rfl, fun _ hq => hq, rfl, fun _ => rfl, fun h => absurd hmsg h,
      fun h => absurd hmsg h, ?_⟩
    intro p n hp
    cases hp
  · rcases drain_messages_cases heapA heapB md rmsg (hM2 hmsg) with
      ⟨hs, hR, hread, hframe, hlive, hnext, hscript, hfreed⟩ | ⟨hs, hR, hB⟩
    · subst hR
      refine ⟨hframe, ?_, hfreed, fun h => absurd h hmsg, fun _ _ => rfl, ?_, ?_⟩
      · intro q hq
        rw [hlive]
        exact List.mem_cons_of_mem _ hq
      · intro _ hf
        rw [hs] at hf
        cases hf
      · intro p n hp
        cases hp
        exact ⟨rfl, rfl, hread⟩
    · subst hB hR
      refine ⟨fun _ _ => rfl, fun _ hq => hq, rfl, fun h => absurd h hmsg, ?_,
        fun _ _ => rfl, ?_⟩
      · intro _ ht
        rw [hs] at ht
        cases ht
      · intro p n hp
        cases hp

/-- Which blocks the hand-over of the artifact sink leaves live: those live
before, and the one the artifact buffer owns. -/
theorem drain_output_live (h3 heapA : Heap) (output rout : Option bgfx_shaderc_buffer)
    (od : List Byte)
    (hO1 : output = none → heapA = h3 ∧ rout = none)
    (hO2 : output ≠ none →
      assignBuffer h3 (some { data := none, size := 0 })
        (if od.isEmpty then none else some od) od.length false = some (heapA, rout)) :
    (∀ q, q ∈ heapA.live → q ∈ h3.live ∨ (q = h3.next ∧ dataOf rout = some q))
    ∧ (∀ q, dataOf rout = some q → q = h3.next ∧ q ∈ heapA.live) := by
  by_cases hout : output = none
  · obtain ⟨hA, hR⟩ := hO1 hout
    subst hA hR
    exact ⟨fun q hq => Or.inl hq, fun q hq => by simp [dataOf] at hq⟩
  · rcases drain_output_cases h3 heapA od rout (hO2 hout) with
      ⟨-, hA, hR⟩ | ⟨-, -, hR, -, -, hlive, -⟩ | ⟨-, -, hR, hA⟩
    · subst hA hR
      exact ⟨fun q hq => Or.inl hq, fun q hq => by simp [dataOf] at hq⟩
    · subst hR
      constructor
      · intro q hq
        rw [hlive] at hq
        rcases List.mem_cons.mp hq with h | h
        · exact Or.inr ⟨h, by rw [h]; rfl⟩
        · exact Or.inl h
      · intro q hq
        have hq2 : h3.next = q := by simpa [dataOf] using hq
        subst hq2
        exact ⟨rfl, by rw [hlive]; exact List.mem_cons_self _ _⟩
    · subst hA hR
      exact ⟨fun q hq => Or.inl hq, fun q hq => by simp [dataOf] at hq⟩

/-- Which blocks the hand-over of the diagnostics sink leaves live: those
live before, and the one the messages buffer owns. -/
theorem drain_messages_live (heapA heapB : Heap)
    (messages rmsg : Option bgfx_shaderc_buffer) (md : List Byte)
    (hM1 : messages = none → heapB = heapA ∧ rmsg = none)
    (hM2 : messages ≠ none →
      (if md.length > 0 then
        assignBuffer heapA (some { data := none, size := 0 }) (some md) md.length true
       else
        assignBuffer heapA (some { data := none, size := 0 }) (some [0]) 0 true)
        = some (heapB, rmsg)) :
    (∀ q, q ∈ heapB.live → q ∈ heapA.live ∨ (q = heapA.next ∧ dataOf rmsg = some q))
    ∧ (∀ q, dataOf rmsg = some q → q = heapA.next ∧ q ∈ heapB.live) := by
  by_cases hmsg : messages = none
  · obtain ⟨hB, hR⟩ := hM1 hmsg
    subst hB hR
    exact ⟨fun q hq => Or.inl hq, fun q hq => by simp [dataOf] at hq⟩
  · rcases drain_messages_cases heapA heapB md rmsg (hM2 hmsg) with
      ⟨-, hR, -, -, hlive, -⟩ | ⟨-, hR, hB⟩
    · subst hR
      constructor
      · intro q hq
        rw [hlive] at hq
        rcases List.mem_cons.mp hq with h | h
        · exact Or.inr ⟨h, by rw [h]; rfl⟩
        · exact Or.inl h
      · intro q hq
        have hq2 : heapA.next = q := by simpa [dataOf] using hq
        subst hq2
        exact ⟨rfl, by rw [hlive]; exact List.mem_cons_self _ _⟩
    · subst hB hR
      exact ⟨fun q hq => Or.inl hq, fun q hq => by simp [dataOf] at hq⟩

/-- What a call through the Compiler leaves behind: the source copy at
`heap.next`, live unless the Compiler released it; the artifact buffer; the
messages buffer. -/
theorem compile_buffers (compileShader : CompilerCall → CompilerRun) (defaults : Options)
    (heap : Heap) (options : bgfx_shaderc_compile_options) (source : List Byte) (size : Nat)
    (varyingSource : Option (List Byte)) (varyingSize : Nat)
    (output messages : Option bgfx_shaderc_buffer)
    (hn : effectiveSize size source ≠ 0)
    (hfit : effectiveSize size source + 2 < UINT32_MOD) :
    ∃ r call, bgfx_shaderc_compile compileShader defaults heap (some options) (some source)
          size varyingSource varyingSize output messages = some r
      ∧ r.calls = [call]
      ∧ r.code = (if (compileShader call).compiled then BGFX_SHADERC_RESULT_SUCCESS
                  else BGFX_SHADERC_RESULT_ERROR)
      ∧ call.comment = ""
      ∧ ((compileShader call).released = false →
          r.heap.read heap.next = some call.shader ∧ heap.next ∈ r.heap.live)
      ∧ ((compileShader call).released = true → heap.next ∉ r.heap.live)
      ∧ r.heap.freed = heap.freed
      ∧ (output = none → r.output = none)
      ∧ (output ≠ none → artifactBytes (compileShader call).writes = [] →
          r.output = some { data := none, size := 0 })
      ∧ (output ≠ none → artifactBytes (compileShader call).writes ≠ [] →
          heap.mallocSucceeds = true →
          r.output = some ⟨some (heap.next + 1),
            (artifactBytes (compileShader call).writes).length % UINT32_MOD⟩)
      ∧ (output ≠ none → heap.mallocSucceeds = false →
          r.output = some { data := none, size := 0 })
      ∧ (∀ p n, r.output = some { data := some p, size := n } →
          p ≠ heap.next
          ∧ n = (artifactBytes (compileShader call).writes).length % UINT32_MOD
          ∧ r.heap.read p = some (artifactBytes (compileShader call).writes))
      ∧ (messages = none → r.messages = none)
      ∧ (messages ≠ none → false ∉ heap.script →
          ∃ p, r.messages = some ⟨some p,
            (diagnosticBytes (compileShader call).writes).length % UINT32_MOD⟩)
      ∧ (∀ p n, r.messages = some { data := some p, size := n } →
          p ≠ heap.next
          ∧ n = (diagnosticBytes (compileShader call).writes).length % UINT32_MOD
          ∧ r.heap.read p = some (diagnosticBytes (compileShader call).writes ++ [0])
          ∧ ∀ q m, r.output = some { data := some q, size := m } → q ≠ p) := by
  obtain ⟨r, hr, call, h3, heapA, hcalls, hcode, -, hcomment, h3read, h3frame, h3live,
    h3next, h3script, h3freed, hO1, hO2, hM1, hM2⟩ :=
    compile_drain compileShader defaults heap options source size varyingSource varyingSize
      output messages hn hfit
  obtain ⟨cframe, cback, -, cnext, cscript, cfreed, ckeep, cgone⟩ :=
    heapAfter_spec (compileShader call) h3 heap.next
  rw [runWrites_eq] at hO2 hM2
  simp only [List.nil_append] at hO2 hM2
  obtain ⟨aframe, anext, alive, afreed, ascript, aout1, aout2, aout3, aout4, aout5⟩ :=
    drain_output_facts _ heapA output r.output _ hO1 hO2
  obtain ⟨bframe, blive, bfreed, bmsg1, bmsg2, -, bmsg4⟩ :=
    drain_messages_facts heapA r.heap messages r.messages _ hM1 hM2
  obtain ⟨aback, -⟩ := drain_output_live _ heapA output r.output _ hO1 hO2
  obtain ⟨bback, -⟩ := drain_messages_live heapA r.heap messages r.messages _ hM1 hM2
  have hms : ((compileShader call).heapAfter h3 heap.next).mallocSucceeds
      = heap.mallocSucceeds := by
    unfold Heap.mallocSucceeds
    rw [cscript, h3script]
  have eC : @Eq Nat ((compileShader call).heapAfter h3 heap.next).next (heap.next + 1) :=
    cnext.trans h3next
  have eA : @Eq Nat heapA.next ((compileShader call).heapAfter h3 heap.next).next
      ∨ @Eq Nat heapA.next (((compileShader call).heapAfter h3 heap.next).next + 1) := anext
  have hneC : heap.next ≠ ((compileShader call).heapAfter h3 heap.next).next := fun h => by
    have h2 : @Eq Nat heap.next ((compileShader call).heapAfter h3 heap.next).next := h
    omega
  have hneA : heap.next ≠ heapA.next := fun h => by
    have h2 : @Eq Nat heap.next heapA.next := h
    rcases eA with h3 | h3 <;> omega
  refine ⟨r, call, hr, hcalls, hcode, hcomment, ?_, ?_, ?_, aout1, aout2, ?_, ?_, ?_, bmsg1,
    ?_, ?_⟩
  · intro hrel
    have hk := ckeep hrel
    constructor
    · rw [bframe _ hneA, aframe _ hneC, hk]
      exact h3read
    · apply blive
      apply alive
      rw [hk, h3live]
      exact List.mem_cons_self _ _
  · intro hrel hmem
    rcases bback _ hmem with hA | ⟨hA, -⟩
    · rcases aback _ hA with hC | ⟨hC, -⟩
      · exact cgone hrel hC
      · exact hneC hC
    · exact hneA hA
  · rw [bfreed, afreed, cfreed, h3freed]
  · intro ho hne hs
    rw [← hms] at hs
    rw [aout3 ho hne hs, cnext, h3next]
  · intro ho hs
    rw [← hms] at hs
    exact aout4 ho hs
  · intro p n hp
    obtain ⟨hp1, hp2, hp3, hp4⟩ := aout5 p n hp
    have f1 : @Eq Nat p ((compileShader call).heapAfter h3 heap.next).next := hp1
    have f2 : @Eq Nat heapA.next (((compileShader call).heapAfter h3 heap.next).next + 1) :=
      hp2
    refine ⟨fun h => ?_, hp4, ?_⟩
    · have h2 : @Eq Nat p heap.next := h
      omega
    · rw [bframe p (fun h => by have h2 : @Eq Nat p heapA.next := h; omega)]
      exact hp3
  · intro hm hsc
    rw [← h3script, ← cscript] at hsc
    exact ⟨heapA.next, bmsg2 hm (mallocSucceeds_of_script heapA (ascript hsc))⟩
  · intro p n hp
    obtain ⟨hp1, hp2, hp3⟩ := bmsg4 p n hp
    have f1 : @Eq Nat p heapA.next := hp1
    refine ⟨fun h => ?_, hp2, hp3, ?_⟩
    · have h2 : @Eq Nat p heap.next := h
      rcases eA with h3 | h3 <;> omega
    · intro q m hq
      obtain ⟨hq1, hq2, -, -⟩ := aout5 q m hq
      have g1 : @Eq Nat q ((compileShader call).heapAfter h3 heap.next).next := hq1
      have g2 : @Eq Nat heapA.next (((compileShader call).heapAfter h3 heap.next).next + 1) :=
        hq2
      intro h
      have h2 : @Eq Nat q p := h
      omega

/-- The entry point evaluated at the sample input. -/
theorem sample_compile :
    bgfx_shaderc_compile sampleCompiler sampleDefaults emptyHeap (some sampleOptions)
      (some sampleSource) 0 none 0 (some emptyBuffer) (some emptyBuffer)
      = some sampleResult := by
  decide

theorem floodChunk_length : floodChunk.length = 1073741824 :=
  List.length_replicate _ _

theorem chunkOf_floodChunk : chunkOf floodChunk 1073741824 = floodChunk := by
  show List.take (Int.toNat 1073741824) floodChunk = floodChunk
  exact List.take_of_length_le (by rw [floodChunk_length]; decide)

theorem four_chunks_length (c : List Byte) (k : Nat) (hc : c.length = k) :
    (c ++ (c ++ (c ++ (c ++ [])))).length = 4 * k := by
  simp only [List.length_append, hc, List.length_nil]
  omega

theorem flood_artifactBytes :
    artifactBytes floodWrites = floodChunk ++ (floodChunk ++ (floodChunk ++ (floodChunk ++ [])))
    ∧ (artifactBytes floodWrites).length = 4294967296
    ∧ artifactBytes floodWrites ≠ [] := by
  have h : artifactBytes floodWrites
      = floodChunk ++ (floodChunk ++ (floodChunk ++ (floodChunk ++ []))) := by
    simp only [floodWrites, artifactBytes, chunkOf_floodChunk]
  have hl : (artifactBytes floodWrites).length = 4294967296 := by
    rw [h]
    exact four_chunks_length floodChunk 1073741824 floodChunk_length
  refine ⟨h, hl, ?_⟩
  intro h0
  rw [h0, List.length_nil] at hl
  omega

theorem flood_diagnosticBytes :
    diagnosticBytes floodWrites
        = floodChunk ++ (floodChunk ++ (floodChunk ++ (floodChunk ++ [])))
    ∧ (diagnosticBytes floodWrites).length = 4294967296
    ∧ diagnosticBytes floodWrites ≠ [] := by
  have h : diagnosticBytes floodWrites
      = floodChunk ++ (floodChunk ++ (floodChunk ++ (floodChunk ++ []))) := by
    simp only [floodWrites, diagnosticBytes, chunkOf_floodChunk]
  have hl : (diagnosticBytes floodWrites).length = 4294967296 := by
    rw [h]
    exact four_chunks_length floodChunk 1073741824 floodChunk_length
  refine ⟨h, hl, ?_⟩
  intro h0
  rw [h0, List.length_nil] at hl
  omega

/-- The `malloc` script after the hand-over of the artifact sink. -/
theorem drain_output_script (h3 heapA : Heap) (output rout : Option bgfx_shaderc_buffer)
    (od : List Byte)
    (hO1 : output = none → heapA = h3 ∧ rout = none)
    (hO2 : output ≠ none →
      assignBuffer h3 (some { data := none, size := 0 })
        (if od.isEmpty then none else some od) od.length false = some (heapA, rout)) :
    heapA.script = scriptForMessages h3 output od := by
  unfold scriptForMessages
  by_cases hout : output = none
  · obtain ⟨hA, -⟩ := hO1 hout
    subst hA hout
    rfl
  · have hsome : output.isSome = true := by
      cases output with
      | none => exact absurd rfl hout
      | some _ => rfl
    rcases drain_output_cases h3 heapA od rout (hO2 hout) with
      ⟨hod, hA, -⟩ | ⟨hod, -, -, -, -, -, -, hscript, -⟩ | ⟨hod, -, -, hA⟩
    · subst hA hod
      simp
    · have hne : od.isEmpty = false := by
        cases od with
        | nil => exact absurd rfl hod
        | cons _ _ => rfl
      rw [hscript, hsome, hne]
      rfl
    · have hne : od.isEmpty = false := by
        cases od with
        | nil => exact absurd rfl hod
        | cons _ _ => rfl
      subst hA
      rw [hsome, hne]
      rfl

/-- When the `malloc` made for the messages buffer succeeds, the messages
buffer of a call through the Compiler is non-null. -/
theorem compile_messages_nonnull (compileShader : CompilerCall → CompilerRun)
    (defaults : Options) (heap : Heap) (options : bgfx_shaderc_compile_options)
    (source : List Byte) (size : Nat) (varyingSource : Option (List Byte))
    (varyingSize : Nat) (output messages : Option bgfx_shaderc_buffer)
    (hn : effectiveSize size source ≠ 0)
    (hfit : effectiveSize size source + 2 < UINT32_MOD) :
    ∃ r call, bgfx_shaderc_compile compileShader defaults heap (some options) (some source)
          size varyingSource varyingSize output messages = some r
      ∧ r.calls = [call]
      ∧ (messages ≠ none →
          (scriptForMessages heap output (artifactBytes (compileShader call).writes)).head?
            ≠ some false →
          ∃ p, r.messages = some ⟨some p,
            (diagnosticBytes (compileShader call).writes).length % UINT32_MOD⟩) := by
  obtain ⟨r, hr, call, h3, heapA, hcalls, -, -, -, -, -, -, -, h3script, -, hO1, hO2, hM1,
    hM2⟩ :=
    compile_drain compileShader defaults heap options source size varyingSource varyingSize
      output messages hn hfit
  rw [runWrites_eq] at hO2 hM2
  simp only [List.nil_append] at hO2 hM2
  obtain ⟨-, -, -, -, cscript, -⟩ := heapAfter_spec (compileShader call) h3 heap.next
  have hscript := drain_output_script _ heapA output r.output _ hO1 hO2
  obtain ⟨-, -, -, -, bmsg2, -, -⟩ :=
    drain_messages_facts heapA r.heap messages r.messages _ hM1 hM2
  refine ⟨r, call, hr, hcalls, ?_⟩
  intro hm hs
  have hsame : scriptForMessages ((compileShader call).heapAfter h3 heap.next) output
        (artifactBytes (compileShader call).writes)
      = scriptForMessages heap output (artifactBytes (compileShader call).writes) := by
    unfold scriptForMessages
    rw [cscript, h3script]
  have hsucc : heapA.mallocSucceeds = true := by
    unfold Heap.mallocSucceeds
    rw [hscript, hsame]
    simpa using hs
  exact ⟨heapA.next, bmsg2 hm hsucc⟩

/-! ## The claims, continued -/

/-- C11 (amended): for every call to bgfx_shaderc_compile that reaches the
Compiler with a requested artifact buffer (its malloc succeeding), whatever
boolean the Compiler returns, when the Compiler wrote fewer than 2^32 bytes
to the artifact sink the artifact buffer ends up holding exactly the
concatenation, in write order, of those bytes, with reported size equal to
the byte count and no terminator added (a block of exactly that many bytes);
when nothing was written it ends up with data = null and size = 0. -/
theorem C11_artifact_buffer (compileShader : CompilerCall → CompilerRun)
    (defaults : Options) (heap : Heap) (options : bgfx_shaderc_compile_options)
    (source : List Byte) (size : Nat) (varyingSource : Option (List Byte))
    (varyingSize : Nat) (o : bgfx_shaderc_buffer) (messages : Option bgfx_shaderc_buffer)
    (r : CompileResult) (call : CompilerCall)
    (hr : bgfx_shaderc_compile compileShader defaults heap (some options) (some source) size
      varyingSource varyingSize (some o) messages = some r)
    (hcall : r.calls = [call])
    (hs : heap.mallocSucceeds = true)
    (hlt : (artifactBytes (compileShader call).writes).length < 2 ^ 32) :
    (artifactBytes (compileShader call).writes = [] →
      r.output = some { data := none, size := 0 })
    ∧ (artifactBytes (compileShader call).writes ≠ [] →
      ∃ p content, r.output
          = some ⟨some p, (artifactBytes (compileShader call).writes).length⟩
        ∧ r.heap.read p = some content
        ∧ content = artifactBytes (compileShader call).writes
        ∧ content.length = (artifactBytes (compileShader call).writes).length) := by
  obtain ⟨hn, hfit⟩ := compile_reaches compileShader defaults heap options source size
    varyingSource varyingSize (some o) messages r hr (by rw [hcall]; simp)
  obtain ⟨r1, call1, hr1, hcalls1, -, -, -, -, -, -, hempty, hfull, -, hblock, -⟩ :=
    compile_buffers compileShader defaults heap options source size varyingSource
      varyingSize (some o) messages hn hfit
  rw [hr] at hr1
  cases hr1
  rw [hcall] at hcalls1
  cases hcalls1
  refine ⟨hempty (by simp), ?_⟩
  intro hne
  have hout := hfull (by simp) hne hs
  have hmod : (artifactBytes (compileShader call).writes).length % UINT32_MOD
      = (artifactBytes (compileShader call).writes).length := Nat.mod_eq_of_lt hlt
  rw [hmod] at hout
  obtain ⟨-, -, hread⟩ := hblock _ _ hout
  exact ⟨_, _, hout, hread, rfl, rfl⟩

/-- C11, at the sample call: the Compiler wrote the 13 bytes of the source
to the artifact sink; the artifact buffer is block 2 with exactly those 13
bytes and reported size 13. -/
theorem C11_artifact_buffer_witness :
    bgfx_shaderc_compile sampleCompiler sampleDefaults emptyHeap (some sampleOptions)
        (some sampleSource) 0 none 0 (some emptyBuffer) (some emptyBuffer) = some sampleResult
    ∧ sampleResult.calls = [sampleCall]
    ∧ emptyHeap.mallocSucceeds = true
    ∧ (artifactBytes (sampleCompiler sampleCall).writes).length < 2 ^ 32
    ∧ artifactBytes (sampleCompiler sampleCall).writes = bytesOf "void main(){}"
    ∧ ∃ p content, sampleResult.output
          = some ⟨some p, (artifactBytes (sampleCompiler sampleCall).writes).length⟩
        ∧ sampleResult.heap.read p = some content
        ∧ content = artifactBytes (sampleCompiler sampleCall).writes
        ∧ content.length = (artifactBytes (sampleCompiler sampleCall).writes).length :=
  ⟨sample_compile, rfl, by decide, by decide, by decide,
    (C11_artifact_buffer sampleCompiler sampleDefaults emptyHeap sampleOptions sampleSource 0
      none 0 emptyBuffer (some emptyBuffer) sampleResult sampleCall sample_compile rfl
      (by decide) (by decide)).2 (by decide)⟩

/-- C11 as stated fails: when the Compiler writes 2^32 bytes to the artifact
sink (four writes of 2^30 bytes), the artifact block holds them all but the
reported size is 0, not the byte count. -/
theorem C11_counterexample_size_wraps :
    ∃ r call p, bgfx_shaderc_compile floodCompiler sampleDefaults emptyHeap
          (some sampleOptions) (some sampleSource) 0 none 0 (some emptyBuffer)
          (some emptyBuffer) = some r
      ∧ r.calls = [call]
      ∧ (artifactBytes (floodCompiler call).writes).length = 4294967296
      ∧ r.output = some { data := some p, size := 0 }
      ∧ r.heap.read p = some (artifactBytes (floodCompiler call).writes) := by
  obtain ⟨r, call, hr, hcalls, -, -, -, -, -, -, -, hfull, -, hblock, -⟩ :=
    compile_buffers floodCompiler sampleDefaults emptyHeap sampleOptions sampleSource 0
      none 0 (some emptyBuffer) (some emptyBuffer) (by decide) (by decide)
  obtain ⟨-, hlen, hne⟩ := flood_artifactBytes
  have hw : (floodCompiler call).writes = floodWrites := rfl
  rw [hw] at hfull hblock
  have hout := hfull (by simp) hne (by decide)
  rw [hlen] at hout
  have hmod : 4294967296 % UINT32_MOD = 0 := by decide
  rw [hmod] at hout
  obtain ⟨-, -, hread⟩ := hblock _ _ hout
  exact ⟨r, call, _, hr, hcalls, hlen, hout, hread⟩

/-- C12 (amended): for every call to bgfx_shaderc_compile that reaches the
Compiler with a requested messages buffer (its malloc succeeding: the first
malloc of the call, or the second when a non-empty artifact sink was handed
over before), whatever boolean the Compiler returns, when fewer than 2^32
bytes were written to the diagnostics sink the messages buffer ends up
non-null, its reported size is the number of bytes written, its first size
bytes are the concatenation of everything written, and the byte at index
size is the 0 terminator; when nothing was written the block is one byte,
the terminator, with reported size 0. -/
theorem C12_messages_buffer (compileShader : CompilerCall → CompilerRun)
    (defaults : Options) (heap : Heap) (options : bgfx_shaderc_compile_options)
    (source : List Byte) (size : Nat) (varyingSource : Option (List Byte))
    (varyingSize : Nat) (output : Option bgfx_shaderc_buffer) (m : bgfx_shaderc_buffer)
    (r : CompileResult) (call : CompilerCall)
    (hr : bgfx_shaderc_compile compileShader defaults heap (some options) (some source) size
      varyingSource varyingSize output (some m) = some r)
    (hcall : r.calls = [call])
    (hs : (scriptForMessages heap output (artifactBytes (compileShader call).writes)).head?
      ≠ some false)
    (hlt : (diagnosticBytes (compileShader call).writes).length < 2 ^ 32) :
    ∃ p content, r.messages
        = some ⟨some p, (diagnosticBytes (compileShader call).writes).length⟩
      ∧ r.heap.read p = some content
      ∧ content.take (diagnosticBytes (compileShader call).writes).length
          = diagnosticBytes (compileShader call).writes
      ∧ content[(diagnosticBytes (compileShader call).writes).length]? = some 0
      ∧ content.length = (diagnosticBytes (compileShader call).writes).length + 1
      ∧ (diagnosticBytes (compileShader call).writes = [] → content = [0]) := by
  obtain ⟨hn, hfit⟩ := compile_reaches compileShader defaults heap options source size
    varyingSource varyingSize output (some m) r hr (by rw [hcall]; simp)
  obtain ⟨r1, call1, hr1, hcalls1, -, -, -, -, -, -, -, -, -, -, -, -, hblock⟩ :=
    compile_buffers compileShader defaults heap options source size varyingSource
      varyingSize output (some m) hn hfit
  rw [hr] at hr1
  cases hr1
  rw [hcall] at hcalls1
  cases hcalls1
  obtain ⟨r2, call2, hr2, hcalls2, hmsg⟩ :=
    compile_messages_nonnull compileShader defaults heap options source size varyingSource
      varyingSize output (some m) hn hfit
  rw [hr] at hr2
  cases hr2
  rw [hcall] at hcalls2
  cases hcalls2
  obtain ⟨p, hp⟩ := hmsg (by simp) hs
  have hmod : (diagnosticBytes (compileShader call).writes).length % UINT32_MOD
      = (diagnosticBytes (compileShader call).writes).length := Nat.mod_eq_of_lt hlt
  rw [hmod] at hp
  obtain ⟨-, -, hread, -⟩ := hblock _ _ hp
  refine ⟨p, _, hp, hread, by simp, by simp, by simp, ?_⟩
  intro h0
  rw [h0]
  rfl

/-- C12, at the sample call: the Compiler wrote the 3 bytes "ok\n" to the
diagnostics sink; the messages buffer is block 3, those bytes and the
terminator, with reported size 3. -/
theorem C12_messages_buffer_witness :
    bgfx_shaderc_compile sampleCompiler sampleDefaults emptyHeap (some sampleOptions)
        (some sampleSource) 0 none 0 (some emptyBuffer) (some emptyBuffer) = some sampleResult
    ∧ sampleResult.calls = [sampleCall]
    ∧ (scriptForMessages emptyHeap (some emptyBuffer)
        (artifactBytes (sampleCompiler sampleCall).writes)).head? ≠ some false
    ∧ (diagnosticBytes (sampleCompiler sampleCall).writes).length < 2 ^ 32
    ∧ diagnosticBytes (sampleCompiler sampleCall).writes = bytesOf "ok\n"
    ∧ ∃ p content, sampleResult.messages
        = some ⟨some p, (diagnosticBytes (sampleCompiler sampleCall).writes).length⟩
      ∧ sampleResult.heap.read p = some content
      ∧ content.take (diagnosticBytes (sampleCompiler sampleCall).writes).length
          = diagnosticBytes (sampleCompiler sampleCall).writes
      ∧ content[(diagnosticBytes (sampleCompiler sampleCall).writes).length]? = some 0
      ∧ content.length = (diagnosticBytes (sampleCompiler sampleCall).writes).length + 1
      ∧ (diagnosticBytes (sampleCompiler sampleCall).writes = [] → content = [0]) :=
  ⟨sample_compile, rfl, by decide, by decide, by decide,
    C12_messages_buffer sampleCompiler sampleDefaults emptyHeap sampleOptions sampleSource 0
      none 0 (some emptyBuffer) emptyBuffer sampleResult sampleCall sample_compile rfl
      (by decide) (by decide)⟩

/-- C12 as stated fails: when the Compiler writes 2^32 bytes to the
diagnostics sink (four writes of 2^30 bytes), the messages block holds them
and the terminator but the reported size is 0: the first size bytes are not
what was written, and the byte at index size is the first byte written, not
the terminator. -/
theorem C12_counterexample_size_wraps :
    ∃ r call p, bgfx_shaderc_compile floodCompiler sampleDefaults emptyHeap
          (some sampleOptions) (some sampleSource) 0 none 0 (some emptyBuffer)
          (some emptyBuffer) = some r
      ∧ r.calls = [call]
      ∧ (diagnosticBytes (floodCompiler call).writes).length = 4294967296
      ∧ r.messages = some { data := some p, size := 0 }
      ∧ r.heap.read p = some (diagnosticBytes (floodCompiler call).writes ++ [0])
      ∧ (diagnosticBytes (floodCompiler call).writes ++ [0])[0]? = some 65 := by
  obtain ⟨r, call, hr, hcalls, -, -, -, -, -, -, -, -, -, -, -, hmsg, hblock⟩ :=
    compile_buffers floodCompiler sampleDefaults emptyHeap sampleOptions sampleSource 0
      none 0 (some emptyBuffer) (some emptyBuffer) (by decide) (by decide)
  obtain ⟨hbytes, hlen, hne⟩ := flood_diagnosticBytes
  have hw : (floodCompiler call).writes = floodWrites := rfl
  rw [hw] at hmsg hblock
  obtain ⟨p, hp⟩ := hmsg (by simp) (by decide)
  rw [hlen] at hp
  have hmod : 4294967296 % UINT32_MOD = 0 := by decide
  rw [hmod] at hp
  obtain ⟨-, -, hread, -⟩ := hblock _ _ hp
  refine ⟨r, call, p, hr, hcalls, hlen, hp, hread, ?_⟩
  show (diagnosticBytes floodWrites ++ [0])[0]? = some 65
  rw [hbytes, List.append_assoc,
    List.getElem?_append_left (by rw [floodChunk_length]; omega)]
  show (List.replicate 1073741824 (65 : Byte))[0]? = some 65
  rw [List.getElem?_replicate, if_pos (by omega)]

/-- Appending chunks one after the other through `VectorWriter::write`. -/
theorem vector_appends (chunks : List (List Byte)) (buf : List Byte) :
    chunks.foldl (fun acc c => (VectorWriter.write acc c c.length).1) buf
      = buf ++ chunks.flatten := by
  induction chunks generalizing buf with
  | nil => simp
  | cons c rest ih =>
    simp only [List.foldl_cons, List.flatten_cons, ih]
    by_cases h0 : c = []
    · subst h0
      simp [VectorWriter.write]
    · have hne : (c.length : Int) ≠ 0 := by
        intro h
        exact h0 (List.length_eq_zero.mp (Int.natCast_eq_zero.mp h))
      simp [VectorWriter.write, hne]

/-- Appending chunks one after the other through `StringWriter::write`. -/
theorem string_appends (chunks : List (List Byte)) (buf : List Byte) :
    chunks.foldl (fun acc c => (StringWriter.write acc c c.length).1) buf
      = buf ++ chunks.flatten := by
  induction chunks generalizing buf with
  | nil => simp
  | cons c rest ih =>
    simp only [List.foldl_cons, List.flatten_cons, ih]
    by_cases h0 : c = []
    · subst h0
      simp [StringWriter.write]
    · have hne : (c.length : Int) ≠ 0 := by
        intro h
        exact h0 (List.length_eq_zero.mp (Int.natCast_eq_zero.mp h))
      simp [StringWriter.write, hne]

/-- C13: for VectorWriter and StringWriter alike, appending zero bytes
returns 0 and leaves the content unchanged; appending n > 0 bytes returns n
and makes the content the previous content followed by exactly those n
bytes; so after any sequence of appends the content is what it was before
followed by the chunks in order. -/
theorem C13_writers_append (buf data : List Byte) (n : Nat) (chunks : List (List Byte))
    (hpos : 0 < n) (hlen : n ≤ data.length) :
    VectorWriter.write buf data 0 = (buf, 0)
    ∧ StringWriter.write buf data 0 = (buf, 0)
    ∧ VectorWriter.write buf data n = (buf ++ data.take n, (n : Int))
    ∧ StringWriter.write buf data n = (buf ++ data.take n, (n : Int))
    ∧ (data.take n).length = n
    ∧ (buf ++ data.take n).take buf.length = buf
    ∧ chunks.foldl (fun acc c => (VectorWriter.write acc c c.length).1) buf
        = buf ++ chunks.flatten
    ∧ chunks.foldl (fun acc c => (StringWriter.write acc c c.length).1) buf
        = buf ++ chunks.flatten := by
  have hne : (n : Int) ≠ 0 := by
    intro h
    have h2 : n = 0 := Int.natCast_eq_zero.mp h
    omega
  refine ⟨rfl, rfl, ?_, ?_, ?_, ?_, vector_appends chunks buf, string_appends chunks buf⟩
  · simp [VectorWriter.write, hne]
  · simp [StringWriter.write, hne]
  · simp [List.length_take, hlen]
  · simp

/-- C13, at the content "ab" and the 3 bytes "cde". -/
theorem C13_writers_append_witness :
    0 < 3 ∧ 3 ≤ (bytesOf "cde").length
    ∧ VectorWriter.write (bytesOf "ab") (bytesOf "cde") 3 = (bytesOf "abcde", 3)
    ∧ StringWriter.write (bytesOf "ab") (bytesOf "cde") 3 = (bytesOf "abcde", 3)
    ∧ VectorWriter.write (bytesOf "ab") (bytesOf "cde") 0 = (bytesOf "ab", 0)
    ∧ StringWriter.write (bytesOf "ab") (bytesOf "cde") 0 = (bytesOf "ab", 0) := by
  obtain ⟨h1, h2, h3, h4, -⟩ :=
    C13_writers_append (bytesOf "ab") (bytesOf "cde") 3 [] (by decide) (by decide)
  exact ⟨by decide, by decide, h3.trans (by decide), h4.trans (by decide), h1, h2⟩

/-- C14: for every call to bgfx_shaderc_compile that reaches the Compiler
with effective source length n (the caller's source having those n bytes),
the source buffer handed to the Compiler consists of the first n bytes of
the caller's source, a newline at index n and a 0 terminator at index n + 1,
and the length handed over is n, not n + 2. -/
theorem C14_source_copy (compileShader : CompilerCall → CompilerRun)
    (defaults : Options) (heap : Heap) (options : bgfx_shaderc_compile_options)
    (source : List Byte) (size : Nat) (varyingSource : Option (List Byte))
    (varyingSize : Nat) (output messages : Option bgfx_shaderc_buffer)
    (r : CompileResult) (call : CompilerCall)
    (hr : bgfx_shaderc_compile compileShader defaults heap (some options) (some source) size
      varyingSource varyingSize output messages = some r)
    (hcall : call ∈ r.calls)
    (hsrc : effectiveSize size source ≤ source.length) :
    call.shaderLen = effectiveSize size source
    ∧ call.shader = source.take (effectiveSize size source) ++ [10, 0]
    ∧ call.shader.take (effectiveSize size source) = source.take (effectiveSize size source)
    ∧ call.shader[effectiveSize size source]? = some 10
    ∧ call.shader[effectiveSize size source + 1]? = some 0
    ∧ call.shader.length = effectiveSize size source + 2 := by
  obtain ⟨hn, hfit⟩ := compile_reaches compileShader defaults heap options source size
    varyingSource varyingSize output messages r hr (List.ne_nil_of_mem hcall)
  obtain ⟨r1, hr1, call1, hcalls1, -, hlen, -, -, hlength, hshader⟩ :=
    compile_valid compileShader defaults heap options source size varyingSource
      varyingSize output messages hn hfit
  rw [hr] at hr1
  cases hr1
  rw [hcalls1, List.mem_singleton] at hcall
  subst hcall
  have hcopy := hshader hsrc
  have htake : (source.take (effectiveSize size source)).length = effectiveSize size source := by
    simp [List.length_take, hsrc]
  refine ⟨hlen, hcopy, ?_, ?_, ?_, hlength⟩
  · rw [hcopy]
    generalize source.take (effectiveSize size source) = T at htake
    rw [← htake]
    exact List.take_left _ _
  · rw [hcopy, List.getElem?_append_right (by rw [htake]), htake]
    simp
  · rw [hcopy, List.getElem?_append_right (by rw [htake]; omega), htake]
    simp

/-- C14, at the sample call: the Compiler is handed "void main(){}", a
newline and a terminator, with length 13. -/
theorem C14_source_copy_witness :
    bgfx_shaderc_compile sampleCompiler sampleDefaults emptyHeap (some sampleOptions)
        (some sampleSource) 0 none 0 (some emptyBuffer) (some emptyBuffer) = some sampleResult
    ∧ sampleCall ∈ sampleResult.calls
    ∧ effectiveSize 0 sampleSource ≤ sampleSource.length
    ∧ effectiveSize 0 sampleSource = 13
    ∧ sampleCall.shaderLen = effectiveSize 0 sampleSource
    ∧ sampleCall.shader = sampleSource.take (effectiveSize 0 sampleSource) ++ [10, 0]
    ∧ sampleCall.shader.take (effectiveSize 0 sampleSource)
        = sampleSource.take (effectiveSize 0 sampleSource)
    ∧ sampleCall.shader[effectiveSize 0 sampleSource]? = some 10
    ∧ sampleCall.shader[effectiveSize 0 sampleSource + 1]? = some 0
    ∧ sampleCall.shader.length = effectiveSize 0 sampleSource + 2 :=
  ⟨sample_compile, by decide, by decide, by decide,
    C14_source_copy sampleCompiler sampleDefaults emptyHeap sampleOptions sampleSource 0
      none 0 (some emptyBuffer) (some emptyBuffer) sampleResult sampleCall sample_compile
      (by decide) (by decide)⟩

/-- C15: for every call to bgfx_shaderc_compile, the Compiler is invoked
zero times when the call returns InvalidArgument and exactly once when it
returns another code; in that one invocation the comment argument is the
empty string, and the two sinks start empty: whatever a returned buffer
holds is exactly what that invocation wrote to its sink (followed by the
terminator, for the messages buffer). Every call returns, except those in
which the 32-bit size of the source copy wraps. -/
theorem C15_compiler_invocations (compileShader : CompilerCall → CompilerRun)
    (defaults : Options) (heap : Heap) (options : Option bgfx_shaderc_compile_options)
    (source : Option (List Byte)) (size : Nat) (varyingSource : Option (List Byte))
    (varyingSize : Nat) (output messages : Option bgfx_shaderc_buffer) :
    (∀ r, bgfx_shaderc_compile compileShader defaults heap options source size
        varyingSource varyingSize output messages = some r →
      (r.code = BGFX_SHADERC_RESULT_INVALID_ARGUMENT → r.calls = [])
      ∧ (r.code ≠ BGFX_SHADERC_RESULT_INVALID_ARGUMENT →
          ∃ call, r.calls = [call] ∧ call.comment = ""
            ∧ (∀ p n, r.output = some { data := some p, size := n } →
                r.heap.read p = some (artifactBytes (compileShader call).writes))
            ∧ (∀ p n, r.messages = some { data := some p, size := n } →
                r.heap.read p
                  = some (diagnosticBytes (compileShader call).writes ++ [0]))))
    ∧ (bgfx_shaderc_compile compileShader defaults heap options source size
        varyingSource varyingSize output messages = none →
      ∃ o s, options = some o ∧ source = some s ∧ UINT32_MOD ≤ effectiveSize size s + 2) := by
  have hinvalid : ∀ r1 : CompileResult,
      bgfx_shaderc_compile compileShader defaults heap options source size
        varyingSource varyingSize output messages = some r1 →
      r1.code = BGFX_SHADERC_RESULT_INVALID_ARGUMENT → r1.calls = [] →
      (∀ r, bgfx_shaderc_compile compileShader defaults heap options source size
          varyingSource varyingSize output messages = some r →
        (r.code = BGFX_SHADERC_RESULT_INVALID_ARGUMENT → r.calls = [])
        ∧ (r.code ≠ BGFX_SHADERC_RESULT_INVALID_ARGUMENT →
            ∃ call, r.calls = [call] ∧ call.comment = ""
              ∧ (∀ p n, r.output = some { data := some p, size := n } →
                  r.heap.read p = some (artifactBytes (compileShader call).writes))
              ∧ (∀ p n, r.messages = some { data := some p, size := n } →
                  r.heap.read p
                    = some (diagnosticBytes (compileShader call).writes ++ [0]))))
      ∧ (bgfx_shaderc_compile compileShader defaults heap options source size
          varyingSource varyingSize output messages = none →
        ∃ o s, options = some o ∧ source = some s
          ∧ UINT32_MOD ≤ effectiveSize size s + 2) := by
    intro r1 hr1 hcode hcalls
    constructor
    · intro r hr
      rw [hr1] at hr
      cases hr
      exact ⟨fun _ => hcalls, fun h => absurd hcode h⟩
    · intro hnone
      rw [hr1] at hnone
      cases hnone
  rcases options with _ | opts
  · obtain ⟨r1, hr1, hcode, hcalls, -⟩ :=
      compile_missing_argument compileShader defaults heap none source size varyingSource
        varyingSize output messages (Or.inl rfl)
    exact hinvalid r1 hr1 hcode hcalls
  · rcases source with _ | src
    · obtain ⟨r1, hr1, hcode, hcalls, -⟩ :=
        compile_missing_argument compileShader defaults heap (some opts) none size
          varyingSource varyingSize output messages (Or.inr rfl)
      exact hinvalid r1 hr1 hcode hcalls
    · by_cases hn : effectiveSize size src = 0
      · obtain ⟨r1, hr1, hcode, hcalls, -⟩ :=
          compile_empty_source compileShader defaults heap opts src size varyingSource
            varyingSize output messages hn
        exact hinvalid r1 hr1 hcode hcalls
      · by_cases hfit : effectiveSize size src + 2 < UINT32_MOD
        · obtain ⟨r1, call, hr1, hcalls, hcode, hcomment, -, -, -, -, -, -, -, hout, -, -,
            hmsg⟩ :=
            compile_buffers compileShader defaults heap opts src size varyingSource
              varyingSize output messages hn hfit
          constructor
          · intro r hr
            rw [hr1] at hr
            cases hr
            constructor
            · intro hc
              rw [hcode] at hc
              cases hb : (compileShader call).compiled <;> rw [hb] at hc <;>
                exact absurd hc (by decide)
            · intro _
              exact ⟨call, hcalls, hcomment, fun p n h => (hout p n h).2.2,
                fun p n h => (hmsg p n h).2.2.1⟩
          · intro hnone
            rw [hr1] at hnone
            cases hnone
        · constructor
          · intro r hr
            rw [compile_copy_wraps_any compileShader defaults heap opts src size
              varyingSource varyingSize output messages (by omega)] at hr
            cases hr
          · intro _
            exact ⟨opts, src, rfl, rfl, by omega⟩

/-- C15, at the sample call: it returns Success having called the Compiler
once with an empty comment, and the two buffers hold what was written. -/
theorem C15_compiler_invocations_witness :
    bgfx_shaderc_compile sampleCompiler sampleDefaults emptyHeap (some sampleOptions)
        (some sampleSource) 0 none 0 (some emptyBuffer) (some emptyBuffer) = some sampleResult
    ∧ sampleResult.code ≠ BGFX_SHADERC_RESULT_INVALID_ARGUMENT
    ∧ ∃ call, sampleResult.calls = [call] ∧ call.comment = ""
        ∧ (∀ p n, sampleResult.output = some { data := some p, size := n } →
            sampleResult.heap.read p = some (artifactBytes (sampleCompiler call).writes))
        ∧ (∀ p n, sampleResult.messages = some { data := some p, size := n } →
            sampleResult.heap.read p
              = some (diagnosticBytes (sampleCompiler call).writes ++ [0])) :=
  ⟨sample_compile, by decide,
    ((C15_compiler_invocations sampleCompiler sampleDefaults emptyHeap (some sampleOptions)
      (some sampleSource) 0 none 0 (some emptyBuffer) (some emptyBuffer)).1 sampleResult
      sample_compile).2 (by decide)⟩

/-- C16 (amended): for every call to bgfx_shaderc_compile with a null
options handle or a null source pointer and a requested messages buffer
(its malloc succeeding), the messages buffer is non-null and
null-terminated, contains the fixed explanatory text, and its reported
length is 50, the length of that text (handoff rule 3), not zero. -/
theorem C16_invalid_arguments_message (compileShader : CompilerCall → CompilerRun)
    (defaults : Options) (heap : Heap) (options : Option bgfx_shaderc_compile_options)
    (source : Option (List Byte)) (size : Nat) (varyingSource : Option (List Byte))
    (varyingSize : Nat) (output : Option bgfx_shaderc_buffer) (m : bgfx_shaderc_buffer)
    (hnull : options = none ∨ source = none) (hs : heap.mallocSucceeds = true) :
    ∃ r p content, bgfx_shaderc_compile compileShader defaults heap options source size
          varyingSource varyingSize output (some m) = some r
      ∧ r.messages = some { data := some p, size := 50 }
      ∧ r.heap.read p = some content
      ∧ content.take 50 = bytesOf "Invalid arguments passed to bgfx_shaderc_compile.\n"
      ∧ content[50]? = some 0
      ∧ content.length = 51
      ∧ (bytesOf "Invalid arguments passed to bgfx_shaderc_compile.\n").length = 50 := by
  obtain ⟨r, hr, -, -, -, -, hmsg, -⟩ :=
    compile_missing_argument compileShader defaults heap options source size varyingSource
      varyingSize output (some m) hnull
  obtain ⟨h1, h2, -⟩ := hmsg m rfl hs
  exact ⟨r, heap.next, _, hr, h1, h2, by decide, by decide, by decide, by decide⟩

/-- C16, at a null source pointer on a heap where malloc succeeds. -/
theorem C16_invalid_arguments_message_witness :
    (some sampleOptions = none ∨ (none : Option (List Byte)) = none)
    ∧ emptyHeap.mallocSucceeds = true
    ∧ ∃ r p content, bgfx_shaderc_compile sampleCompiler sampleDefaults emptyHeap
          (some sampleOptions) none 0 none 0 none (some emptyBuffer) = some r
      ∧ r.messages = some { data := some p, size := 50 }
      ∧ r.heap.read p = some content
      ∧ content.take 50 = bytesOf "Invalid arguments passed to bgfx_shaderc_compile.\n"
      ∧ content[50]? = some 0
      ∧ content.length = 51
      ∧ (bytesOf "Invalid arguments passed to bgfx_shaderc_compile.\n").length = 50 :=
  ⟨Or.inr rfl, by decide,
    C16_invalid_arguments_message sampleCompiler sampleDefaults emptyHeap (some sampleOptions)
      none 0 none 0 none emptyBuffer (Or.inr rfl) (by decide)⟩

/-- C16 as stated fails: with a null source pointer and a requested messages
buffer, the reported length is 50, not zero. -/
theorem C16_counterexample_size_is_50 :
    ∃ r, bgfx_shaderc_compile sampleCompiler sampleDefaults emptyHeap (some sampleOptions)
          none 0 none 0 none (some emptyBuffer) = some r
      ∧ r.code = BGFX_SHADERC_RESULT_INVALID_ARGUMENT
      ∧ r.messages = some { data := some 1, size := 50 }
      ∧ r.heap.read 1
          = some (bytesOf "Invalid arguments passed to bgfx_shaderc_compile.\n" ++ [0]) := by
  obtain ⟨r, hr, hcode, -, -, -, hmsg, -⟩ :=
    compile_missing_argument sampleCompiler sampleDefaults emptyHeap (some sampleOptions)
      none 0 none 0 none (some emptyBuffer) (Or.inr rfl)
  obtain ⟨h1, h2, -⟩ := hmsg emptyBuffer rfl (by decide)
  exact ⟨r, hr, hcode, h1, h2⟩

/-- C17: for every call of assignBuffer on a non-null destination in which
the malloc fails (the one-byte malloc of the empty null-terminated case or
the malloc of the non-empty case), the destination ends up with data = null
and size = 0 whatever it held before, and no block is added; and for a null
destination assignBuffer does nothing, whatever the heap, the source, the
length and the flag are: the heap is as before, its malloc script included. -/
theorem C17_allocation_failure (heap : Heap) (b : bgfx_shaderc_buffer)
    (data : Option (List Byte)) (n : Nat) (nt : Bool) :
    (heap.mallocSucceeds = false →
      (((n = 0 ∨ data = none) ∧ nt = true) ∨ (n ≠ 0 ∧ data ≠ none)) →
      ∃ heap1, assignBuffer heap (some b) data n nt
          = some (heap1, some { data := none, size := 0 })
        ∧ heap1.live = heap.live ∧ heap1.blocks = heap.blocks)
    ∧ assignBuffer heap none data n nt = some (heap, none) := by
  refine ⟨fun hs hcall => ⟨_, assignBuffer_malloc_fails heap b data n nt hs ?_, rfl, rfl⟩, rfl⟩
  rcases hcall with ⟨-, h⟩ | ⟨h1, h2⟩
  · exact Or.inl h
  · right
    intro h
    rcases h with h | h
    · exact h1 h
    · exact h2 h

/-- C17, at a destination holding stale values, the 3 bytes "abc" with a
terminator asked for, on a heap whose next malloc fails; and at a null
destination on a heap whose next malloc would succeed. -/
theorem C17_allocation_failure_witness :
    failingHeap.mallocSucceeds = false
    ∧ ((((3 : Nat) = 0 ∨ some (bytesOf "abc") = none) ∧ true = true)
        ∨ ((3 : Nat) ≠ 0 ∧ some (bytesOf "abc") ≠ none))
    ∧ (∃ heap1, assignBuffer failingHeap (some { data := some 9, size := 4 })
          (some (bytesOf "abc")) 3 true = some (heap1, some { data := none, size := 0 })
        ∧ heap1.live = failingHeap.live ∧ heap1.blocks = failingHeap.blocks)
    ∧ emptyHeap.mallocSucceeds = true
    ∧ assignBuffer emptyHeap none (some (bytesOf "abc")) 3 true = some (emptyHeap, none) :=
  ⟨by decide, by decide,
    (C17_allocation_failure failingHeap { data := some 9, size := 4 } (some (bytesOf "abc")) 3
      true).1 (by decide) (by decide),
    by decide,
    (C17_allocation_failure emptyHeap emptyBuffer (some (bytesOf "abc")) 3 true).2⟩

/-- C18 (amended): for every call of assignBuffer on a non-null destination
with nullTerminate = false: if the source is absent or has length 0 the
destination ends up with data = null and size = 0, whatever it held before,
and no allocation is made; otherwise (the malloc succeeding), for a length
len below 2^32, the allocation is one new block of exactly len bytes, the
source's len bytes, and the reported size is len. -/
theorem C18_assignBuffer_plain (heap : Heap) (b : bgfx_shaderc_buffer) :
    (∀ (data : Option (List Byte)) (n : Nat), n = 0 ∨ data = none →
      assignBuffer heap (some b) data n false
        = some (heap, some { data := none, size := 0 }))
    ∧ (∀ (S : List Byte) (n : Nat), heap.mallocSucceeds = true → n ≠ 0 → n ≤ S.length →
        n < 2 ^ 32 →
        ∃ heap1 memory content,
          assignBuffer heap (some b) (some S) n false
            = some (heap1, some { data := some memory, size := n })
          ∧ heap1.read memory = some content
          ∧ content = S.take n
          ∧ content.length = n
          ∧ heap1.live = memory :: heap.live) := by
  refine ⟨fun data n h0 => assignBuffer_empty_plain heap b data n h0, ?_⟩
  intro S n hs hn hle hlt
  obtain ⟨heap1, h, hread, -, hlive, -⟩ := assignBuffer_copy heap b S n false hs hn hle
  have hmod : n % UINT32_MOD = n := Nat.mod_eq_of_lt hlt
  rw [hmod] at h
  exact ⟨heap1, heap.next, S.take n, h, by simpa using hread, rfl,
    by simp [List.length_take, hle], hlive⟩

/-- C18, at a destination holding stale values: a null source with length
0 (the call made for an empty artifact sink), a null source with a length,
a source with length 0, and the three bytes "abc" on a heap where malloc
succeeds. -/
theorem C18_assignBuffer_plain_witness :
    assignBuffer emptyHeap (some { data := some 9, size := 4 }) none 0 false
        = some (emptyHeap, some { data := none, size := 0 })
    ∧ assignBuffer emptyHeap (some { data := some 9, size := 4 }) none 3 false
        = some (emptyHeap, some { data := none, size := 0 })
    ∧ assignBuffer emptyHeap (some { data := some 9, size := 4 }) (some (bytesOf "abc")) 0 false
        = some (emptyHeap, some { data := none, size := 0 })
    ∧ emptyHeap.mallocSucceeds = true ∧ 3 ≠ 0 ∧ 3 ≤ (bytesOf "abc").length ∧ 3 < 2 ^ 32
    ∧ ∃ heap1 memory content,
        assignBuffer emptyHeap (some { data := some 9, size := 4 }) (some (bytesOf "abc")) 3
            false
          = some (heap1, some { data := some memory, size := 3 })
        ∧ heap1.read memory = some content
        ∧ content = (bytesOf "abc").take 3
        ∧ content.length = 3
        ∧ heap1.live = memory :: emptyHeap.live :=
  ⟨(C18_assignBuffer_plain emptyHeap { data := some 9, size := 4 }).1 none 0 (Or.inl rfl),
    (C18_assignBuffer_plain emptyHeap { data := some 9, size := 4 }).1 none 3 (Or.inr rfl),
    (C18_assignBuffer_plain emptyHeap { data := some 9, size := 4 }).1 (some (bytesOf "abc")) 0
      (Or.inl rfl),
    by decide, by decide, by decide, by decide,
    (C18_assignBuffer_plain emptyHeap { data := some 9, size := 4 }).2 (bytesOf "abc") 3
      (by decide) (by decide) (by decide) (by decide)⟩

/-- C18 as stated fails: for a source of 2^32 bytes and nullTerminate =
false the block holds the 2^32 bytes but the reported size is 0, not len. -/
theorem C18_counterexample_size_wraps :
    (List.replicate 4294967296 (65 : Byte)).length = 4294967296
    ∧ ∃ heap1 memory,
      assignBuffer emptyHeap (some emptyBuffer) (some (List.replicate 4294967296 (65 : Byte)))
          4294967296 false
        = some (heap1, some { data := some memory, size := 0 })
      ∧ heap1.read memory = some (List.replicate 4294967296 (65 : Byte)) := by
  have hlen : (List.replicate 4294967296 (65 : Byte)).length = 4294967296 :=
    List.length_replicate _ _
  obtain ⟨heap1, h, hread, -⟩ :=
    assignBuffer_copy emptyHeap emptyBuffer (List.replicate 4294967296 (65 : Byte))
      4294967296 false (by decide) (by decide) (by rw [hlen])
  have hmod : 4294967296 % UINT32_MOD = 0 := by decide
  rw [hmod] at h
  have htake : List.take 4294967296 (List.replicate 4294967296 (65 : Byte))
      = List.replicate 4294967296 (65 : Byte) :=
    List.take_of_length_le (by rw [hlen])
  rw [htake] at hread
  have happ : List.replicate 4294967296 (65 : Byte) ++ (if false = true then [0] else [])
      = List.replicate 4294967296 (65 : Byte) := List.append_nil _
  rw [happ] at hread
  exact ⟨hlen, heap1, emptyHeap.next, h, hread⟩

/-- C19, the code at a failing input: with shader_size = 2^32 - 1 and a
source of that many bytes, the 32-bit size of the source copy is
(2^32 - 1 + 2) mod 2^32 = 1, not 2^32 + 1, the 32-bit index of the terminator
is (2^32 - 1 + 1) mod 2^32 = 0, and the entry point stores outside the
one-byte block. -/
theorem C19_source_copy_size_wraps :
    effectiveSize 4294967295 (List.replicate 4294967295 (65 : Byte)) = 4294967295
    ∧ (4294967295 + 2) % UINT32_MOD = 1
    ∧ (4294967295 + 1) % UINT32_MOD = 0
    ∧ bgfx_shaderc_compile sampleCompiler sampleDefaults emptyHeap (some sampleOptions)
        (some (List.replicate 4294967295 (65 : Byte))) 4294967295 none 0 (some emptyBuffer)
        (some emptyBuffer) = none := by
  have heff : effectiveSize 4294967295 (List.replicate 4294967295 (65 : Byte))
      = 4294967295 := by
    show (if (4294967295 : Nat) = 0 then
        strlen (List.replicate 4294967295 (65 : Byte)) % UINT32_MOD
      else 4294967295) = 4294967295
    rw [if_neg (by decide)]
  refine ⟨heff, by decide, by decide, ?_⟩
  exact compile_copy_wraps_any sampleCompiler sampleDefaults emptyHeap sampleOptions
    (List.replicate 4294967295 (65 : Byte)) 4294967295 none 0 (some emptyBuffer)
    (some emptyBuffer) (by rw [heff]; decide)

end Shaderc
